import Mathlib

/-!
MonoDAQ-U driver core (libsigrok, `src/hardware/monodaq-u`)

A shallow embedding of `protocol.h` / `protocol.c`: the mailbox table filled by
the transfer callback, the command exchange that waits on it, the ring of
digital sample blocks, and the periodic drain that turns queued blocks into
logic packets.

Conventions of the embedding

* Bytes, sizes and indices are natural numbers; the two subtractions where
  unsigned wrap-around matters (`(short_protocol & 0x3f) - sizeof(uint16_t)` and
  `MONODAQ_U_DIGITAL_BUFFER_SIZE - logic.length`) are computed modulo `2^64`.
* `gint64` clock readings are integers.
* C arrays that are only ever accessed through `memcpy` with an offset
  (`digital_blocks`, `digital_buffer`) are flat byte memories `Nat → Nat`,
  addressed by byte offset from the start of the array. A row of
  `digital_blocks` is the `MONODAQ_U_DIGITAL_PACKET_SIZE` bytes from
  `block_off idx` on.
* The number of ring slots (`MONODAQ_U_DIGITAL_BLOCKS`) is an explicit
  parameter `blocks` of every function that uses it.
* A C operation whose memory access leaves the object it was given
  (undefined behaviour) makes the embedded function return `none`: a mailbox
  slot outside the table, a copy that reads or writes past a row of
  `digital_blocks`, past `digital_buffer`, or past the transfer or request
  buffer.
* The drain loop runs on fuel: `none` means that the loop had not ended when the
  fuel was used up or that a copy left its object; the theorems show that with
  blocks of at most 48 samples fuel for one round of the ring is enough.
-/

namespace MonodaqU

/- Compiled code only: the constructor-reuse pass mishandles a structure field
that is read twice within one update, as drain_step does. -/
set_option compiler.reuse false

/-! ## Constants of `protocol.h` and `protocol.c` -/

def MONODAQU_MAX_MESSAGE_ID : Nat := 127
def MONODAQU_MAX_MESSAGE_SIZE : Nat := 64
def MONODAQ_U_DIGITAL_BUFFER_SIZE : Nat := 8192
def MONODAQ_U_DIGITAL_PACKET_SIZE : Nat := 48
def MONODAQ_U_DIGITAL_BLOCKS : Nat := 100000

def MONDAQ_U_MSG_DAQ_AD : Nat := 19
def MONDAQ_U_MSG_DAQ_TRIGGER : Nat := 23
def MONDAQ_U_MSG_RATE : Nat := 57
def MONDAQ_U_ADC_PROTOCOL_ID : Nat := 0x7d
def MONDAQ_U_DIGITAL_CHANNEL_ID : Nat := 2

/-- The value of sizeof(isn_proto_t): protocol, message_num. -/
def sizeof_isn_proto_t : Nat := 2
/-- The value of sizeof(isn_proto_long_t): protocol_id, port, packet_counter (2),
short_protocol, user_protocol_id, alignment_counter (2). -/
def sizeof_isn_proto_long_t : Nat := 8
/-- The value of sizeof(ins_rates_t): header and 14 rates of 4 bytes. -/
def sizeof_ins_rates_t : Nat := 58
/-- The value of sizeof(daq_ad_t), packed. -/
def sizeof_daq_ad_t : Nat := 30
/-- The value of sizeof(daq_trigger_t): header, timed, acq_N. -/
def sizeof_daq_trigger_t : Nat := 10

/-- Width of size_t arithmetic. -/
def SIZE_MOD : Nat := 2 ^ 64

/-! ## Data model -/

inductive dev_state_t where
  | M_STATE_STOPPED
  | M_STATE_SAMPLING
  deriving DecidableEq, Repr

/-- Return codes used by this driver. Their numeric values live in
libsigrok.h; only their being pairwise different is used. -/
inductive sr_ret where
  | SR_OK
  | SR_ERR
  | SR_ERR_TIMEOUT
  | SR_ERR_DATA
  deriving DecidableEq, Repr

/-- A mailbox slot (the condition variable is part of the wait model). -/
structure msg_t where
  time : Int
  sz : Nat
  data : List Nat
  deriving DecidableEq, Repr

/-- The fields of struct dev_context the core reads or writes. -/
structure dev_context where
  state : dev_state_t
  sample_rate : Nat
  message_table : Nat → msg_t
  digital_buffer : Nat → Nat
  digital_samples_per_block : Nat
  digital_blocks : Nat → Nat
  digital_bl_in_idx : Nat
  digital_bl_out_idx : Nat

inductive libusb_transfer_status where
  | LIBUSB_TRANSFER_COMPLETED
  | LIBUSB_TRANSFER_ERROR
  | LIBUSB_TRANSFER_TIMED_OUT
  | LIBUSB_TRANSFER_CANCELLED
  | LIBUSB_TRANSFER_STALL
  | LIBUSB_TRANSFER_NO_DEVICE
  | LIBUSB_TRANSFER_OVERFLOW
  deriving DecidableEq, Repr

/-- The fields of struct libusb_transfer the callback reads: buffer is the
64-byte input buffer the transfer was filled with. -/
structure libusb_transfer where
  status : libusb_transfer_status
  buffer : List Nat
  actual_length : Nat
  deriving DecidableEq, Repr

/-- A logic packet as handed to sr_session_send: the bytes are the first
length bytes found at logic.data at the moment of the call. -/
structure sr_datafeed_logic where
  length : Nat
  unitsize : Nat
  data : List Nat
  deriving DecidableEq, Repr

/-! ## Memory helpers -/

/-- Reading n bytes of a flat memory from byte offset off. -/
def mem_read (m : Nat → Nat) (off n : Nat) : List Nat :=
  (List.range n).map (fun j => m (off + j))

/-- The effect of memcpy(dst + off, src, src.length) on a flat memory. -/
def mem_write (m : Nat → Nat) (off : Nat) (src : List Nat) : Nat → Nat :=
  fun a => if off ≤ a ∧ a < off + src.length then src.getD (a - off) 0 else m a

/-- The effect of memcpy(dst, src, n) on an array held as a list, for n within
both arrays. -/
def list_memcpy (dst src : List Nat) (n : Nat) : List Nat :=
  src.take n ++ dst.drop n

/-- Byte offset of row idx of digital_blocks. -/
def block_off (idx : Nat) : Nat := idx * MONODAQ_U_DIGITAL_PACKET_SIZE

/-! ## Transfer callback -/

/-- The length handed to memcpy when a digital frame is stored:
(lp->short_protocol & 0x03fu) - sizeof(uint16_t), in size_t arithmetic. -/
def payload_len (short_protocol : Nat) : Nat :=
  ((short_protocol &&& 0x3f) + SIZE_MOD - 2) % SIZE_MOD

/-- The index after idx in a ring of blocks slots. -/
def ring_next (blocks idx : Nat) : Nat :=
  let idx1 := idx + 1
  if idx1 < blocks then idx1 else idx1 - blocks

/-- What one run of the callback did. -/
structure rx_result where
  devc : dev_context
  /-- The text "digital input queue full, packet dropped" was logged. -/
  warned : Bool
  /-- The transfer was handed back to libusb_submit_transfer. -/
  resubmitted : Bool

/-- The body of the LIBUSB_TRANSFER_COMPLETED case of receive_transfer; now is
the value g_get_monotonic_time() returns. The Bool is the queue-full warning. -/
def receive_completed (blocks : Nat) (devc : dev_context) (now : Int)
    (transfer : libusb_transfer) : Option (dev_context × Bool) :=
  let data := transfer.buffer
  if sizeof_isn_proto_t ≤ transfer.actual_length then
    if data.getD 0 0 = 0x7F then
      let msg_num := data.getD 1 0
      if msg_num ≤ MONODAQU_MAX_MESSAGE_ID ∧
          transfer.actual_length ≤ MONODAQU_MAX_MESSAGE_SIZE ∧
          transfer.actual_length ≤ data.length then
        let slot := devc.message_table msg_num
        let slot1 : msg_t :=
          { time := now
            sz := transfer.actual_length
            data := list_memcpy slot.data data transfer.actual_length }
        some ({ devc with
                message_table := fun i => if i = msg_num then slot1 else devc.message_table i },
              false)
      else none
    else if devc.state = dev_state_t.M_STATE_SAMPLING
        ∧ data.getD 0 0 = MONDAQ_U_ADC_PROTOCOL_ID
        ∧ sizeof_isn_proto_long_t ≤ transfer.actual_length then
      if data.getD 1 0 = MONDAQ_U_DIGITAL_CHANNEL_ID then
        let idx := ring_next blocks devc.digital_bl_in_idx
        if idx = devc.digital_bl_out_idx then
          some (devc, true)
        else
          let n := payload_len (data.getD 4 0)
          if idx < blocks ∧ n ≤ MONODAQ_U_DIGITAL_PACKET_SIZE ∧
              sizeof_isn_proto_long_t + n ≤ data.length then
            some ({ devc with
                    digital_blocks :=
                      mem_write devc.digital_blocks (block_off idx)
                        ((data.drop sizeof_isn_proto_long_t).take n)
                    digital_bl_in_idx := idx },
                  false)
          else none
      else some (devc, false)
    else some (devc, false)
  else some (devc, false)

/-- The callback receive_transfer: the switch on transfer->status, with the
COMPLETED case falling through into the resubmission of TIMED_OUT. -/
def receive_transfer (blocks : Nat) (devc : dev_context) (now : Int)
    (transfer : libusb_transfer) : Option rx_result :=
  match transfer.status with
  | libusb_transfer_status.LIBUSB_TRANSFER_COMPLETED =>
    match receive_completed blocks devc now transfer with
    | some (d, w) => some { devc := d, warned := w, resubmitted := true }
    | none => none
  | libusb_transfer_status.LIBUSB_TRANSFER_TIMED_OUT =>
    some { devc := devc, warned := false, resubmitted := true }
  | _ => some { devc := devc, warned := false, resubmitted := false }

/-! ## Periodic drain -/

/-- The local variables of monodaq_u_send_data together with the device context
and the packets handed to sr_session_send so far. p_data is the offset of the
write pointer from the start of digital_buffer. -/
structure drain_state where
  devc : dev_context
  idx : Nat
  p_data : Nat
  length : Nat
  sent : List sr_datafeed_logic

/-- The call sr_session_send(sdi, &packet) at the current locals. -/
def session_send (st : drain_state) : List sr_datafeed_logic :=
  st.sent ++ [{ length := st.length, unitsize := 1,
                data := mem_read st.devc.digital_buffer 0 st.length }]

/-- One iteration of the for loop of monodaq_u_send_data. The memcpy reads
digital_samples_per_block bytes from row idx of digital_blocks, a row of
MONODAQ_U_DIGITAL_PACKET_SIZE bytes, and writes them at p_data into
digital_buffer: none when the row does not exist, the read runs past the row or
the write past the buffer. -/
def drain_step (blocks : Nat) (st : drain_state) : Option drain_state :=
  let s := st.devc.digital_samples_per_block
  let st1 : Option drain_state :=
    if (MONODAQ_U_DIGITAL_BUFFER_SIZE + SIZE_MOD - st.length) % SIZE_MOD < s then
      some { st with sent := session_send st, length := 0, p_data := 0 }
    else if st.idx < blocks ∧ s ≤ MONODAQ_U_DIGITAL_PACKET_SIZE ∧
        st.p_data + s ≤ MONODAQ_U_DIGITAL_BUFFER_SIZE then
      some { st with
             devc := { st.devc with
                       digital_buffer :=
                         mem_write st.devc.digital_buffer st.p_data
                           (mem_read st.devc.digital_blocks (block_off st.idx) s) }
             p_data := st.p_data + s
             length := st.length + s }
    else none
  match st1 with
  | none => none
  | some st1 =>
    let idx := ring_next blocks st.idx
    some { st1 with idx := idx, devc := { st1.devc with digital_bl_out_idx := idx } }

/-- The for loop of monodaq_u_send_data, run for at most fuel iterations; none
when the loop is still running after them or an iteration has no result. -/
def drain_loop (blocks : Nat) : Nat → drain_state → Option drain_state
  | fuel, st =>
    if st.idx = st.devc.digital_bl_in_idx then some st
    else
      match fuel with
      | 0 => none
      | fuel + 1 =>
        match drain_step blocks st with
        | none => none
        | some st1 => drain_loop blocks fuel st1

/-- The function monodaq_u_send_data: the device context it leaves and the packets
it sent, in order. -/
def monodaq_u_send_data (blocks fuel : Nat) (devc : dev_context) :
    Option (dev_context × List sr_datafeed_logic) :=
  let st0 : drain_state :=
    { devc := devc, idx := devc.digital_bl_out_idx, p_data := 0, length := 0, sent := [] }
  match drain_loop blocks fuel st0 with
  | none => none
  | some st =>
    if st.length ≠ 0 then some (st.devc, session_send st)
    else some (st.devc, st.sent)

/-! ## Command exchange

The callback runs on the libusb event thread. What it does while the exchanging
thread is inside libusb_bulk_transfer or has released message_mutex in
g_cond_wait_until is given to the embedded functions as the list of frames it
handled there, each with the clock value it read. -/

/-- The callback run over frames in arrival order: the device context left and
the queue-full warnings, one flag per frame. -/
def dispatch (blocks : Nat) : dev_context → List (Int × libusb_transfer) →
    Option (dev_context × List Bool)
  | devc, [] => some (devc, [])
  | devc, f :: rest =>
    match receive_transfer blocks devc f.1 f.2 with
    | none => none
    | some r =>
      match dispatch blocks r.devc rest with
      | none => none
      | some (d, ws) => some (d, r.warned :: ws)

/-- One call of g_cond_wait_until: frames handled by the callback while the
mutex was released, and the value returned (TRUE: woken, FALSE: the deadline
end_time has passed). -/
structure wait_event where
  frames : List (Int × libusb_transfer)
  signalled : Bool

/-- The while loop of receive_message. The Bool is false when the loop was left
through the timeout branch. When the listed calls are used up the next call
returns FALSE: the deadline is 500 ms after start_time. -/
def wait_reply (blocks msg_num : Nat) (start_time : Int) :
    dev_context → List wait_event → Option (Bool × dev_context)
  | devc, [] =>
    if (devc.message_table msg_num).time < start_time then some (false, devc)
    else some (true, devc)
  | devc, ev :: rest =>
    if (devc.message_table msg_num).time < start_time then
      match dispatch blocks devc ev.frames with
      | none => none
      | some (d, _) =>
        if ev.signalled then wait_reply blocks msg_num start_time d rest
        else some (false, d)
    else some (true, devc)

/-- Result of an exchange: the return code, the caller's buffer, the context. -/
structure xfer_result where
  ret : sr_ret
  command : List Nat
  devc : dev_context

/-- The function receive_message; start_time is the value g_get_monotonic_time()
returns after the mutex is taken. -/
def receive_message (blocks : Nat) (devc : dev_context) (msg_num : Nat)
    (data : List Nat) (len : Nat) (start_time : Int) (waits : List wait_event) :
    Option xfer_result :=
  if msg_num ≤ MONODAQU_MAX_MESSAGE_ID then
    match wait_reply blocks msg_num start_time devc waits with
    | none => none
    | some (false, d) => some { ret := sr_ret.SR_ERR_TIMEOUT, command := data, devc := d }
    | some (true, d) =>
      if len ≠ (d.message_table msg_num).sz then
        some { ret := sr_ret.SR_ERR_DATA, command := data, devc := d }
      else if len ≤ MONODAQU_MAX_MESSAGE_SIZE ∧ len ≤ data.length then
        some { ret := sr_ret.SR_OK
               command := list_memcpy data (d.message_table msg_num).data len
               devc := d }
      else none
  else none

/-- What happens around one exchange: the outcome of libusb_bulk_transfer (its
return value and the byte count it stored in xfer), the frames the callback
handled from the start of the write until receive_message holds the mutex, the
clock value receive_message then reads, and the calls of g_cond_wait_until. -/
structure xfer_env where
  usb_ret : Int
  xfer : Int
  pre_wait : List (Int × libusb_transfer)
  start_time : Int
  waits : List wait_event

/-- The function xfer_command. -/
def xfer_command (blocks : Nat) (devc : dev_context) (command : List Nat)
    (in_len out_len : Nat) (env : xfer_env) : Option xfer_result :=
  match dispatch blocks devc env.pre_wait with
  | none => none
  | some (d, _) =>
    if env.usb_ret ≠ 0 then some { ret := sr_ret.SR_ERR, command := command, devc := d }
    else if env.xfer ≠ (in_len : Int) then
      some { ret := sr_ret.SR_ERR, command := command, devc := d }
    else
      match receive_message blocks d (command.getD 1 0) command out_len
          env.start_time env.waits with
      | none => none
      | some r =>
        if r.ret ≠ sr_ret.SR_OK then some { r with ret := sr_ret.SR_ERR }
        else some { r with ret := sr_ret.SR_OK }

/-- The function do_command. -/
def do_command (blocks : Nat) (devc : dev_context) (command : List Nat)
    (cmd_len : Nat) (env : xfer_env) : Option xfer_result :=
  xfer_command blocks devc command cmd_len cmd_len env

/-- The function do_request. -/
def do_request (blocks : Nat) (devc : dev_context) (command : List Nat)
    (cmd_len : Nat) (env : xfer_env) : Option xfer_result :=
  xfer_command blocks devc command sizeof_isn_proto_t cmd_len env

/-! ## Acquisition start and stop -/

/-- A zero-initialised command struct of sz bytes with ISN_PROTO_HEADER(msg). -/
def isn_struct (msg sz : Nat) : List Nat :=
  [0x7f, msg] ++ List.replicate (sz - 2) 0

/-- The four bytes of a uint32_t as they lie in a packed struct (the device and
the hosts the driver is built for are little-endian). -/
def le32 (v : Nat) : List Nat :=
  [v % 256, v / 256 % 256, v / 65536 % 256, v / 16777216 % 256]

/-- Storing bytes at offset off of a struct held as a list. -/
def set_bytes (s : List Nat) (off : Nat) (bytes : List Nat) : List Nat :=
  s.take off ++ bytes ++ s.drop (off + bytes.length)

/-- Result of start or stop: return code, context, and how many requests were
handed to libusb_bulk_transfer. -/
structure acquire_result where
  ret : sr_ret
  devc : dev_context
  exchanges : Nat

/-- The function monodaq_u_start_acquire; e1 to e4 describe what happens around
its four exchanges, in order. -/
def monodaq_u_start_acquire (blocks : Nat) (devc : dev_context)
    (e1 e2 e3 e4 : xfer_env) : Option acquire_result :=
  let rates := isn_struct MONDAQ_U_MSG_RATE sizeof_ins_rates_t
  let daq_ad := isn_struct MONDAQ_U_MSG_DAQ_AD sizeof_daq_ad_t
  let daq_trigger := isn_struct MONDAQ_U_MSG_DAQ_TRIGGER sizeof_daq_trigger_t
  match do_request blocks devc rates sizeof_ins_rates_t e1 with
  | none => none
  | some r1 =>
    if r1.ret ≠ sr_ret.SR_OK then some { ret := r1.ret, devc := r1.devc, exchanges := 1 }
    else
      let rates1 := set_bytes r1.command 2 (le32 (r1.devc.sample_rate % 2 ^ 32))
      match do_command blocks r1.devc rates1 sizeof_ins_rates_t e2 with
      | none => none
      | some r2 =>
        if r2.ret ≠ sr_ret.SR_OK then some { ret := r2.ret, devc := r2.devc, exchanges := 2 }
        else
          match do_request blocks r2.devc daq_ad sizeof_daq_ad_t e3 with
          | none => none
          | some r3 =>
            if r3.ret ≠ sr_ret.SR_OK then
              some { ret := r3.ret, devc := r3.devc, exchanges := 3 }
            else
              let d : dev_context :=
                { r3.devc with
                  digital_samples_per_block := r3.command.getD 11 0
                  digital_bl_in_idx := 0
                  digital_bl_out_idx := 0
                  state := dev_state_t.M_STATE_SAMPLING }
              let trig := set_bytes (set_bytes daq_trigger 6 (le32 0)) 2 (le32 1)
              match do_command blocks d trig sizeof_daq_trigger_t e4 with
              | none => none
              | some r4 =>
                if r4.ret ≠ sr_ret.SR_OK then
                  some { ret := r4.ret, devc := r4.devc, exchanges := 4 }
                else some { ret := sr_ret.SR_OK, devc := r4.devc, exchanges := 4 }

/-- The function monodaq_u_stop_acquire. -/
def monodaq_u_stop_acquire (blocks : Nat) (devc : dev_context) (e : xfer_env) :
    Option acquire_result :=
  let daq_trigger := isn_struct MONDAQ_U_MSG_DAQ_TRIGGER sizeof_daq_trigger_t
  let d : dev_context := { devc with state := dev_state_t.M_STATE_STOPPED }
  let trig := set_bytes (set_bytes daq_trigger 6 (le32 0)) 2 (le32 0)
  match do_command blocks d trig sizeof_daq_trigger_t e with
  | none => none
  | some r =>
    if r.ret ≠ sr_ret.SR_OK then some { ret := r.ret, devc := r.devc, exchanges := 1 }
    else some { ret := sr_ret.SR_OK, devc := r.devc, exchanges := 1 }

/-! ## Relations between device contexts -/

/-- The fields the callback never writes are the same in d2 as in d1. -/
def same_consumer (d1 d2 : dev_context) : Prop :=
  d2.state = d1.state ∧ d2.digital_bl_out_idx = d1.digital_bl_out_idx ∧
  d2.digital_samples_per_block = d1.digital_samples_per_block ∧
  d2.digital_buffer = d1.digital_buffer ∧ d2.sample_rate = d1.sample_rate

/-- The producer side of the ring is the same in d2 as in d1. -/
def same_ring (d1 d2 : dev_context) : Prop :=
  d2.digital_bl_in_idx = d1.digital_bl_in_idx ∧ d2.digital_blocks = d1.digital_blocks

/-! ## The queue as the specification describes it -/

/-- Number of slots from idx up to, not including, w, going round a ring of
blocks slots. -/
def ring_dist (blocks idx w : Nat) : Nat :=
  if idx ≤ w then w - idx else w + blocks - idx

/-- The slot indices met when going k slots round the ring from idx. -/
def ring_walk (blocks : Nat) : Nat → Nat → List Nat
  | 0, _ => []
  | k + 1, idx => idx :: ring_walk blocks k (ring_next blocks idx)

/-- The slot indices from the read index up to, not including, the write index. -/
def queued_slots (blocks : Nat) (devc : dev_context) : List Nat :=
  ring_walk blocks (ring_dist blocks devc.digital_bl_out_idx devc.digital_bl_in_idx)
    devc.digital_bl_out_idx

/-- The first digital_samples_per_block bytes of slot idx. -/
def block_bytes (devc : dev_context) (idx : Nat) : List Nat :=
  mem_read devc.digital_blocks (block_off idx) devc.digital_samples_per_block

/-- The bytes a drain is to deliver: the queued slots in index order, each
contributing its first digital_samples_per_block bytes. -/
def queued_bytes (blocks : Nat) (devc : dev_context) : List Nat :=
  ((queued_slots blocks devc).map (block_bytes devc)).flatten

/-! ## Properties used in the proofs about the drain -/

/-- The test of the drain loop: the block does not fit behind length bytes. -/
def no_room (st : drain_state) : Prop :=
  (MONODAQ_U_DIGITAL_BUFFER_SIZE + SIZE_MOD - st.length) % SIZE_MOD
    < st.devc.digital_samples_per_block

/-- The memcpy of the drain stays inside its objects: row idx exists, the bytes
read lie in that row, the bytes written lie in digital_buffer. -/
def copy_in_bounds (blocks : Nat) (st : drain_state) : Prop :=
  st.idx < blocks ∧ st.devc.digital_samples_per_block ≤ MONODAQ_U_DIGITAL_PACKET_SIZE ∧
  st.p_data + st.devc.digital_samples_per_block ≤ MONODAQ_U_DIGITAL_BUFFER_SIZE

/-- While everything queued fits into the scratch buffer: nothing sent yet, and
the bytes gathered so far followed by the bytes of the slots still to visit are
the target. -/
def fits_inv (blocks s w : Nat) (B : Nat → Nat) (target : List Nat) (st : drain_state) : Prop :=
  st.sent = [] ∧ st.p_data = st.length ∧ st.devc.digital_samples_per_block = s ∧
  st.devc.digital_blocks = B ∧ st.devc.digital_bl_in_idx = w ∧
  st.devc.digital_bl_out_idx = st.idx ∧
  st.length + ring_dist blocks st.idx w * s ≤ MONODAQ_U_DIGITAL_BUFFER_SIZE ∧
  mem_read st.devc.digital_buffer 0 st.length ++
    ((ring_walk blocks (ring_dist blocks st.idx w) st.idx).map
      (fun i => mem_read B (block_off i) s)).flatten = target

/-! ## Digital data frames -/

/-- A completed transfer that the callback takes for a digital data frame and
whose payload copy stays inside the ring slot and the input buffer. -/
def digital_frame (tr : libusb_transfer) : Prop :=
  tr.status = libusb_transfer_status.LIBUSB_TRANSFER_COMPLETED ∧
  tr.buffer.getD 0 0 = MONDAQ_U_ADC_PROTOCOL_ID ∧
  tr.buffer.getD 1 0 = MONDAQ_U_DIGITAL_CHANNEL_ID ∧
  sizeof_isn_proto_long_t ≤ tr.actual_length ∧
  payload_len (tr.buffer.getD 4 0) ≤ MONODAQ_U_DIGITAL_PACKET_SIZE ∧
  sizeof_isn_proto_long_t + payload_len (tr.buffer.getD 4 0) ≤ tr.buffer.length

instance (tr : libusb_transfer) : Decidable (digital_frame tr) := by
  unfold digital_frame
  infer_instance

/-- The bytes of a digital data frame that the callback copies into the ring. -/
def frame_payload (tr : libusb_transfer) : List Nat :=
  (tr.buffer.drop sizeof_isn_proto_long_t).take (payload_len (tr.buffer.getD 4 0))

/-- The tests by which receive_transfer admits a digital data frame. -/
def admission (blocks : Nat) (devc : dev_context) (transfer : libusb_transfer) : Prop :=
  devc.state = dev_state_t.M_STATE_SAMPLING ∧
  transfer.buffer.getD 0 0 = MONDAQ_U_ADC_PROTOCOL_ID ∧
  transfer.buffer.getD 1 0 = MONDAQ_U_DIGITAL_CHANNEL_ID ∧
  sizeof_isn_proto_long_t ≤ transfer.actual_length ∧
  ring_next blocks devc.digital_bl_in_idx ≠ devc.digital_bl_out_idx

instance (blocks : Nat) (devc : dev_context) (transfer : libusb_transfer) :
    Decidable (admission blocks devc transfer) := by
  unfold admission
  infer_instance

/-! ## What an exchange leaves of the device context -/

/-- The context d2 differs from d1 only by what the callback did: it is reached
from d1 by the callback handling some frames, capture state, read index and
samples-per-block are the same, and if d1 is stopped the write index and the
sample blocks are the same too. -/
def callback_only (blocks : Nat) (d1 d2 : dev_context) : Prop :=
  d2.state = d1.state ∧ d2.digital_bl_out_idx = d1.digital_bl_out_idx ∧
  d2.digital_samples_per_block = d1.digital_samples_per_block ∧
  (∃ fs ws, dispatch blocks d1 fs = some (d2, ws)) ∧
  (d1.state = dev_state_t.M_STATE_STOPPED →
    d2.digital_bl_in_idx = d1.digital_bl_in_idx ∧ d2.digital_blocks = d1.digital_blocks)

/-! ## Concrete inputs -/

/-- A device context as monodaq_u_start_acquire leaves it when the device
reports 48 samples per block: sampling, ring empty at index 0, memory zeroed. -/
def sampling_start : dev_context :=
  { state := dev_state_t.M_STATE_SAMPLING
    sample_rate := 1000
    message_table := fun _ => { time := 0, sz := 0, data := List.replicate 64 0 }
    digital_buffer := fun _ => 0
    digital_samples_per_block := 48
    digital_blocks := fun _ => 0
    digital_bl_in_idx := 0
    digital_bl_out_idx := 0 }

/-- A completed 56-byte digital data frame in the 64-byte input buffer: protocol
0x7D, port 2, short_protocol 0xB2 (payload length 50 - 2 = 48), and 48 payload
bytes all equal to v. -/
def value_frame (v : Nat) : libusb_transfer :=
  { status := libusb_transfer_status.LIBUSB_TRANSFER_COMPLETED
    buffer := [0x7d, 2, 0, 0, 0xB2, 2, 0, 0] ++ List.replicate 48 v ++ List.replicate 8 0
    actual_length := 56 }

/-- A completed control frame of len bytes for message number msg in the 64-byte
input buffer; byte 11 (the d_samples field of a daq_ad_t reply) is d_samples,
the other payload bytes are zero. -/
def control_reply (msg len d_samples : Nat) : libusb_transfer :=
  { status := libusb_transfer_status.LIBUSB_TRANSFER_COMPLETED
    buffer := [0x7f, msg] ++ List.replicate 9 0 ++ [d_samples] ++ List.replicate 52 0
    actual_length := len }

/-- An exchange that goes well: all in_len bytes are written, the clock reads t0
when the wait starts, and during the first wait the callback stores reply with
timestamp t0 + 1 and wakes the waiter. -/
def answered (in_len : Nat) (t0 : Int) (reply : libusb_transfer) : xfer_env :=
  { usb_ret := 0
    xfer := in_len
    pre_wait := []
    start_time := t0
    waits := [{ frames := [(t0 + 1, reply)], signalled := true }] }

/-- A device context after monodaq_u_init_device: stopped, mailbox timestamps 0. -/
def stopped_idle : dev_context :=
  { sampling_start with
    state := dev_state_t.M_STATE_STOPPED
    digital_samples_per_block := 0 }

/-- A start on an idle device in which the device answers all four exchanges,
reporting 48 digital samples per block. -/
def scenario_start : Option acquire_result :=
  monodaq_u_start_acquire MONODAQ_U_DIGITAL_BLOCKS stopped_idle
    (answered 2 10 (control_reply MONDAQ_U_MSG_RATE sizeof_ins_rates_t 0))
    (answered 58 20 (control_reply MONDAQ_U_MSG_RATE sizeof_ins_rates_t 0))
    (answered 2 30 (control_reply MONDAQ_U_MSG_DAQ_AD sizeof_daq_ad_t 48))
    (answered 10 40 (control_reply MONDAQ_U_MSG_DAQ_TRIGGER sizeof_daq_trigger_t 0))

/-- A sampling device whose consumer has fallen behind: slots 0 to 170 are
queued (read index 0, write index 171), 48 samples per block, and every byte of
slot i has the value i. -/
def overrun_queue : dev_context :=
  { sampling_start with
    digital_blocks := fun a => a / 48
    digital_bl_in_idx := 171 }

/-- A sampling device whose ring is full: read index 0, write index on the last
of the 100000 slots, so that the slot after the write index is the read index. -/
def full_ring : dev_context :=
  { sampling_start with digital_bl_in_idx := 99999 }

/-- A completed transfer of len bytes in the 64-byte input buffer with the header
of a digital data frame (protocol 0x7D, port 2) and short_protocol byte sp; the
56 buffer bytes behind the header all hold 9. -/
def raw_digital_frame (sp len : Nat) : libusb_transfer :=
  { status := libusb_transfer_status.LIBUSB_TRANSFER_COMPLETED
    buffer := [0x7d, 2, 0, 0, sp, 2, 0, 0] ++ List.replicate 56 9
    actual_length := len }

/-- An exchange whose reply is quick: the 2-byte rate request is written in full,
the callback stores the 58-byte reply with timestamp 100 while the writing thread
is still on its way into receive_message, the clock read there gives 101, and
nothing else arrives before the deadline. -/
def early_reply : xfer_env :=
  { usb_ret := 0
    xfer := 2
    pre_wait := [(100, control_reply MONDAQ_U_MSG_RATE sizeof_ins_rates_t 0)]
    start_time := 101
    waits := [] }

/-- The first exchange of scenario_start, the rate request: what it returns. Here
and in the next three the stand-in after getD is never used, as each exchange
does return. -/
def scenario_rate_request : xfer_result :=
  (do_request MONODAQ_U_DIGITAL_BLOCKS stopped_idle
    (isn_struct MONDAQ_U_MSG_RATE sizeof_ins_rates_t) sizeof_ins_rates_t
    (answered 2 10 (control_reply MONDAQ_U_MSG_RATE sizeof_ins_rates_t 0))).getD
    { ret := sr_ret.SR_ERR, command := [], devc := stopped_idle }

/-- The second exchange of scenario_start: the rate command. -/
def scenario_rate_command : xfer_result :=
  (do_command MONODAQ_U_DIGITAL_BLOCKS scenario_rate_request.devc
    (set_bytes scenario_rate_request.command 2
      (le32 (scenario_rate_request.devc.sample_rate % 2 ^ 32)))
    sizeof_ins_rates_t
    (answered 58 20 (control_reply MONDAQ_U_MSG_RATE sizeof_ins_rates_t 0))).getD
    { ret := sr_ret.SR_ERR, command := [], devc := stopped_idle }

/-- The third exchange of scenario_start: the acquisition-parameter request. -/
def scenario_daq_request : xfer_result :=
  (do_request MONODAQ_U_DIGITAL_BLOCKS scenario_rate_command.devc
    (isn_struct MONDAQ_U_MSG_DAQ_AD sizeof_daq_ad_t) sizeof_daq_ad_t
    (answered 2 30 (control_reply MONDAQ_U_MSG_DAQ_AD sizeof_daq_ad_t 48))).getD
    { ret := sr_ret.SR_ERR, command := [], devc := stopped_idle }

/-- The fourth exchange of scenario_start: the trigger command. -/
def scenario_trigger : xfer_result :=
  (do_command MONODAQ_U_DIGITAL_BLOCKS
    { scenario_daq_request.devc with
      digital_samples_per_block := scenario_daq_request.command.getD 11 0
      digital_bl_in_idx := 0
      digital_bl_out_idx := 0
      state := dev_state_t.M_STATE_SAMPLING }
    (set_bytes (set_bytes (isn_struct MONDAQ_U_MSG_DAQ_TRIGGER sizeof_daq_trigger_t) 6
      (le32 0)) 2 (le32 1))
    sizeof_daq_trigger_t
    (answered 10 40 (control_reply MONDAQ_U_MSG_DAQ_TRIGGER sizeof_daq_trigger_t 0))).getD
    { ret := sr_ret.SR_ERR, command := [], devc := stopped_idle }

/-- The stop scenario, step by step; the stand-in after each getD is never used,
as every step does return. First the start of scenario_start. -/
def scenario_started : acquire_result :=
  scenario_start.getD { ret := sr_ret.SR_ERR, devc := stopped_idle, exchanges := 0 }

/-- Then three digital data frames with payload bytes 1, 2 and 3, handled by the
callback at times 50, 60 and 70. -/
def scenario_admitted : dev_context × List Bool :=
  (dispatch MONODAQ_U_DIGITAL_BLOCKS scenario_started.devc
    [(50, value_frame 1), (60, value_frame 2), (70, value_frame 3)]).getD (stopped_idle, [])

/-- Then the stop, whose trigger command the device answers. -/
def scenario_stopped : acquire_result :=
  (monodaq_u_stop_acquire MONODAQ_U_DIGITAL_BLOCKS scenario_admitted.1
    (answered 10 100 (control_reply MONDAQ_U_MSG_DAQ_TRIGGER sizeof_daq_trigger_t 0))).getD
    { ret := sr_ret.SR_ERR, devc := stopped_idle, exchanges := 0 }

/-- Then a fourth digital data frame, payload bytes 4, handled at time 110. -/
def scenario_late : rx_result :=
  (receive_transfer MONODAQ_U_DIGITAL_BLOCKS scenario_stopped.devc 110 (value_frame 4)).getD
    { devc := stopped_idle, warned := true, resubmitted := false }

/-- Then one drain. -/
def scenario_drained : dev_context × List sr_datafeed_logic :=
  (monodaq_u_send_data MONODAQ_U_DIGITAL_BLOCKS MONODAQ_U_DIGITAL_BLOCKS
    scenario_late.devc).getD (stopped_idle, [])

/-- A stopped device whose slot 57 still holds the 58-byte reply of an earlier
exchange, stored at time 40. -/
def stale_rate_reply : dev_context :=
  { stopped_idle with
    message_table := fun i =>
      if i = 57 then { time := 40, sz := 58, data := List.replicate 64 0 }
      else { time := 0, sz := 0, data := List.replicate 64 0 } }

/-- An exchange during whose first wait the callback stores a reply of only 10
bytes for message 57, at time 101, and wakes the waiter; the clock read 100 when
the wait started. -/
def short_reply : xfer_env :=
  { usb_ret := 0
    xfer := 2
    pre_wait := []
    start_time := 100
    waits := [{ frames := [(101, control_reply MONDAQ_U_MSG_RATE 10 0)], signalled := true }] }

/-! ## Lemmas: the transfer callback -/

theorem same_consumer_refl (d : dev_context) : same_consumer d d :=
  ⟨rfl, rfl, rfl, rfl, rfl⟩

theorem same_consumer_trans {d1 d2 d3 : dev_context} (h12 : same_consumer d1 d2)
    (h23 : same_consumer d2 d3) : same_consumer d1 d3 := by
  obtain ⟨a1, a2, a3, a4, a5⟩ := h12
  obtain ⟨b1, b2, b3, b4, b5⟩ := h23
  exact ⟨b1.trans a1, b2.trans a2, b3.trans a3, b4.trans a4, b5.trans a5⟩

theorem same_ring_refl (d : dev_context) : same_ring d d := ⟨rfl, rfl⟩

theorem same_ring_trans {d1 d2 d3 : dev_context} (h12 : same_ring d1 d2)
    (h23 : same_ring d2 d3) : same_ring d1 d3 :=
  ⟨h23.1.trans h12.1, h23.2.trans h12.2⟩

theorem receive_completed_consumer (blocks : Nat) (devc : dev_context) (now : Int)
    (tr : libusb_transfer) (d : dev_context) (w : Bool)
    (h : receive_completed blocks devc now tr = some (d, w)) : same_consumer devc d := by
  unfold receive_completed at h
  simp only [] at h
  split_ifs at h <;> simp only [Option.some.injEq, Prod.mk.injEq] at h <;>
    (obtain ⟨rfl, _⟩ := h; exact ⟨rfl, rfl, rfl, rfl, rfl⟩)

theorem receive_completed_stopped (blocks : Nat) (devc : dev_context) (now : Int)
    (tr : libusb_transfer) (d : dev_context) (w : Bool)
    (hs : devc.state = dev_state_t.M_STATE_STOPPED)
    (h : receive_completed blocks devc now tr = some (d, w)) :
    same_ring devc d ∧ w = false := by
  unfold receive_completed at h
  have hns : ¬ (devc.state = dev_state_t.M_STATE_SAMPLING
      ∧ tr.buffer.getD 0 0 = MONDAQ_U_ADC_PROTOCOL_ID
      ∧ sizeof_isn_proto_long_t ≤ tr.actual_length) := by
    rw [hs]
    exact fun hc => absurd hc.1 (by decide)
  simp only [if_neg hns] at h
  split_ifs at h <;> simp only [Option.some.injEq, Prod.mk.injEq] at h <;>
    (obtain ⟨rfl, rfl⟩ := h; exact ⟨⟨rfl, rfl⟩, rfl⟩)

theorem receive_transfer_consumer (blocks : Nat) (devc : dev_context) (now : Int)
    (tr : libusb_transfer) (r : rx_result)
    (h : receive_transfer blocks devc now tr = some r) : same_consumer devc r.devc := by
  unfold receive_transfer at h
  split at h
  · split at h
    · rename_i d w hc
      simp only [Option.some.injEq] at h
      subst h
      exact receive_completed_consumer _ _ _ _ _ _ hc
    · exact absurd h (by simp)
  · simp only [Option.some.injEq] at h
    subst h
    exact same_consumer_refl _
  · simp only [Option.some.injEq] at h
    subst h
    exact same_consumer_refl _

theorem receive_transfer_stopped (blocks : Nat) (devc : dev_context) (now : Int)
    (tr : libusb_transfer) (r : rx_result)
    (hs : devc.state = dev_state_t.M_STATE_STOPPED)
    (h : receive_transfer blocks devc now tr = some r) :
    same_ring devc r.devc ∧ r.warned = false := by
  unfold receive_transfer at h
  split at h
  · split at h
    · rename_i d w hc
      simp only [Option.some.injEq] at h
      subst h
      exact receive_completed_stopped _ _ _ _ _ _ hs hc
    · exact absurd h (by simp)
  · simp only [Option.some.injEq] at h
    subst h
    exact ⟨same_ring_refl _, rfl⟩
  · simp only [Option.some.injEq] at h
    subst h
    exact ⟨same_ring_refl _, rfl⟩

/-! ## Lemmas: ring indices and flat memory -/

theorem ring_next_lt (blocks idx : Nat) (h : idx < blocks) : ring_next blocks idx < blocks := by
  unfold ring_next
  simp only []
  split_ifs with h1
  · exact h1
  · omega

theorem ring_next_eq_mod (blocks idx : Nat) (h : idx < blocks) :
    ring_next blocks idx = (idx + 1) % blocks := by
  unfold ring_next
  simp only []
  split_ifs with h1
  · exact (Nat.mod_eq_of_lt h1).symm
  · have : idx + 1 = blocks := by omega
    rw [this]
    simp

theorem ring_dist_next (blocks idx w : Nat) (hi : idx < blocks) (hw : w < blocks)
    (hne : idx ≠ w) : ring_dist blocks (ring_next blocks idx) w + 1 = ring_dist blocks idx w := by
  unfold ring_dist ring_next
  simp only []
  split_ifs <;> omega

theorem ring_dist_zero (blocks idx w : Nat) (hi : idx < blocks)
    (h : ring_dist blocks idx w = 0) : idx = w := by
  unfold ring_dist at h
  split_ifs at h <;> omega

theorem ring_dist_lt (blocks idx w : Nat) (hi : idx < blocks) (hw : w < blocks) :
    ring_dist blocks idx w < blocks := by
  unfold ring_dist
  split_ifs <;> omega

theorem mem_read_length (m : Nat → Nat) (off n : Nat) : (mem_read m off n).length = n := by
  simp [mem_read]

theorem mem_read_append (m : Nat → Nat) (off a b : Nat) :
    mem_read m off (a + b) = mem_read m off a ++ mem_read m (off + a) b := by
  unfold mem_read
  rw [List.range_add, List.map_append, List.map_map]
  congr 1
  apply List.map_congr_left
  intro j _
  simp [Nat.add_assoc]

theorem mem_read_congr (m1 m2 : Nat → Nat) (off n : Nat)
    (h : ∀ a, off ≤ a → a < off + n → m1 a = m2 a) : mem_read m1 off n = mem_read m2 off n := by
  unfold mem_read
  apply List.map_congr_left
  intro j hj
  rw [List.mem_range] at hj
  exact h _ (Nat.le_add_right _ _) (by omega)

theorem mem_read_write_same (m : Nat → Nat) (off : Nat) (src : List Nat) :
    mem_read (mem_write m off src) off src.length = src := by
  apply List.ext_getElem
  · simp [mem_read]
  · intro i h1 h2
    simp only [mem_read, List.getElem_map, List.getElem_range, mem_write]
    rw [if_pos ⟨Nat.le_add_right _ _, by omega⟩]
    simp [List.getD_eq_getElem?_getD, List.getElem?_eq_getElem h2]

theorem mem_write_outside (m : Nat → Nat) (off : Nat) (src : List Nat) (a : Nat)
    (h : a < off ∨ off + src.length ≤ a) : mem_write m off src a = m a := by
  unfold mem_write
  rw [if_neg]
  omega

/-! ## Lemmas: the drain -/

theorem drain_loop_done (blocks fuel : Nat) (st : drain_state)
    (h : st.idx = st.devc.digital_bl_in_idx) : drain_loop blocks fuel st = some st := by
  cases fuel <;> simp [drain_loop, h]

theorem send_data_empty (blocks fuel : Nat) (devc : dev_context)
    (h : devc.digital_bl_out_idx = devc.digital_bl_in_idx) :
    monodaq_u_send_data blocks fuel devc = some (devc, []) := by
  unfold monodaq_u_send_data
  simp only []
  rw [drain_loop_done _ _ _ h]
  simp

/-! ## Lemmas: frames handled while an exchange is in progress -/

theorem dispatch_consumer (blocks : Nat) (fs : List (Int × libusb_transfer)) :
    ∀ (d d2 : dev_context) (ws : List Bool),
      dispatch blocks d fs = some (d2, ws) → same_consumer d d2 := by
  induction fs with
  | nil =>
    intro d d2 ws h
    simp only [dispatch, Option.some.injEq, Prod.mk.injEq] at h
    obtain ⟨rfl, _⟩ := h
    exact same_consumer_refl _
  | cons f rest ih =>
    intro d d2 ws h
    simp only [dispatch] at h
    split at h
    · exact absurd h (by simp)
    · rename_i r hr
      split at h
      · exact absurd h (by simp)
      · rename_i d3 ws3 hd
        simp only [Option.some.injEq, Prod.mk.injEq] at h
        obtain ⟨rfl, _⟩ := h
        exact same_consumer_trans (receive_transfer_consumer _ _ _ _ _ hr) (ih _ _ _ hd)

theorem dispatch_stopped (blocks : Nat) (fs : List (Int × libusb_transfer)) :
    ∀ (d d2 : dev_context) (ws : List Bool),
      d.state = dev_state_t.M_STATE_STOPPED →
      dispatch blocks d fs = some (d2, ws) → same_ring d d2 := by
  induction fs with
  | nil =>
    intro d d2 ws _ h
    simp only [dispatch, Option.some.injEq, Prod.mk.injEq] at h
    obtain ⟨rfl, _⟩ := h
    exact same_ring_refl _
  | cons f rest ih =>
    intro d d2 ws hs h
    simp only [dispatch] at h
    split at h
    · exact absurd h (by simp)
    · rename_i r hr
      split at h
      · exact absurd h (by simp)
      · rename_i d3 ws3 hd
        simp only [Option.some.injEq, Prod.mk.injEq] at h
        obtain ⟨rfl, _⟩ := h
        have hc := receive_transfer_consumer _ _ _ _ _ hr
        have hr2 := (receive_transfer_stopped _ _ _ _ _ hs hr).1
        exact same_ring_trans hr2 (ih _ _ _ (hc.1.trans hs) hd)

theorem wait_reply_consumer (blocks msg_num : Nat) (t0 : Int) (evs : List wait_event) :
    ∀ (d d2 : dev_context) (b : Bool),
      wait_reply blocks msg_num t0 d evs = some (b, d2) → same_consumer d d2 := by
  induction evs with
  | nil =>
    intro d d2 b h
    simp only [wait_reply] at h
    split_ifs at h <;> simp only [Option.some.injEq, Prod.mk.injEq] at h <;>
      (obtain ⟨_, rfl⟩ := h; exact same_consumer_refl _)
  | cons ev rest ih =>
    intro d d2 b h
    simp only [wait_reply] at h
    by_cases hst : (d.message_table msg_num).time < t0
    · rw [if_pos hst] at h
      cases hd : dispatch blocks d ev.frames with
      | none => rw [hd] at h; exact absurd h (by simp)
      | some p =>
        obtain ⟨d3, ws⟩ := p
        rw [hd] at h
        have h3 := dispatch_consumer _ _ _ _ _ hd
        by_cases hsig : ev.signalled = true
        · simp only [if_pos hsig] at h
          exact same_consumer_trans h3 (ih _ _ _ h)
        · simp only [if_neg hsig, Option.some.injEq, Prod.mk.injEq] at h
          obtain ⟨_, rfl⟩ := h
          exact h3
    · simp only [if_neg hst, Option.some.injEq, Prod.mk.injEq] at h
      obtain ⟨_, rfl⟩ := h
      exact same_consumer_refl _

theorem wait_reply_stopped (blocks msg_num : Nat) (t0 : Int) (evs : List wait_event) :
    ∀ (d d2 : dev_context) (b : Bool),
      d.state = dev_state_t.M_STATE_STOPPED →
      wait_reply blocks msg_num t0 d evs = some (b, d2) → same_ring d d2 := by
  induction evs with
  | nil =>
    intro d d2 b _ h
    simp only [wait_reply] at h
    split_ifs at h <;> simp only [Option.some.injEq, Prod.mk.injEq] at h <;>
      (obtain ⟨_, rfl⟩ := h; exact same_ring_refl _)
  | cons ev rest ih =>
    intro d d2 b hs h
    simp only [wait_reply] at h
    by_cases hst : (d.message_table msg_num).time < t0
    · rw [if_pos hst] at h
      cases hd : dispatch blocks d ev.frames with
      | none => rw [hd] at h; exact absurd h (by simp)
      | some p =>
        obtain ⟨d3, ws⟩ := p
        rw [hd] at h
        have h3 := dispatch_stopped _ _ _ _ _ hs hd
        have hc := dispatch_consumer _ _ _ _ _ hd
        by_cases hsig : ev.signalled = true
        · simp only [if_pos hsig] at h
          exact same_ring_trans h3 (ih _ _ _ (hc.1.trans hs) h)
        · simp only [if_neg hsig, Option.some.injEq, Prod.mk.injEq] at h
          obtain ⟨_, rfl⟩ := h
          exact h3
    · simp only [if_neg hst, Option.some.injEq, Prod.mk.injEq] at h
      obtain ⟨_, rfl⟩ := h
      exact same_ring_refl _

/-- Whatever receive_message returns, its context is the one the wait loop left. -/
theorem receive_message_devc (blocks : Nat) (devc : dev_context) (msg_num : Nat)
    (data : List Nat) (len : Nat) (t0 : Int) (waits : List wait_event) (r : xfer_result)
    (h : receive_message blocks devc msg_num data len t0 waits = some r) :
    ∃ b, wait_reply blocks msg_num t0 devc waits = some (b, r.devc) := by
  unfold receive_message at h
  by_cases hm : msg_num ≤ MONODAQU_MAX_MESSAGE_ID
  · rw [if_pos hm] at h
    cases hw : wait_reply blocks msg_num t0 devc waits with
    | none => rw [hw] at h; exact absurd h (by simp)
    | some p =>
      obtain ⟨b, d⟩ := p
      rw [hw] at h
      cases b with
      | false =>
        simp only [Option.some.injEq] at h
        subst h
        exact ⟨false, rfl⟩
      | true =>
        simp only [] at h
        split_ifs at h <;> simp only [Option.some.injEq] at h <;> subst h <;> exact ⟨true, rfl⟩
  · rw [if_neg hm] at h
    exact absurd h (by simp)

theorem xfer_command_consumer (blocks : Nat) (devc : dev_context) (command : List Nat)
    (in_len out_len : Nat) (env : xfer_env) (r : xfer_result)
    (h : xfer_command blocks devc command in_len out_len env = some r) :
    same_consumer devc r.devc := by
  unfold xfer_command at h
  split at h
  · exact absurd h (by simp)
  · rename_i d ws hd
    have h1 := dispatch_consumer _ _ _ _ _ hd
    split_ifs at h
    · simp only [Option.some.injEq] at h
      subst h
      exact h1
    · simp only [Option.some.injEq] at h
      subst h
      exact h1
    · split at h
      · exact absurd h (by simp)
      · rename_i r2 hr
        obtain ⟨b, hw⟩ := receive_message_devc _ _ _ _ _ _ _ _ hr
        have h2 := wait_reply_consumer _ _ _ _ _ _ _ hw
        split_ifs at h <;> simp only [Option.some.injEq] at h <;> subst h <;>
          exact same_consumer_trans h1 h2

theorem xfer_command_stopped (blocks : Nat) (devc : dev_context) (command : List Nat)
    (in_len out_len : Nat) (env : xfer_env) (r : xfer_result)
    (hs : devc.state = dev_state_t.M_STATE_STOPPED)
    (h : xfer_command blocks devc command in_len out_len env = some r) :
    same_ring devc r.devc := by
  unfold xfer_command at h
  split at h
  · exact absurd h (by simp)
  · rename_i d ws hd
    have h1 := dispatch_stopped _ _ _ _ _ hs hd
    have c1 := dispatch_consumer _ _ _ _ _ hd
    split_ifs at h
    · simp only [Option.some.injEq] at h
      subst h
      exact h1
    · simp only [Option.some.injEq] at h
      subst h
      exact h1
    · split at h
      · exact absurd h (by simp)
      · rename_i r2 hr
        obtain ⟨b, hw⟩ := receive_message_devc _ _ _ _ _ _ _ _ hr
        have h2 := wait_reply_stopped _ _ _ _ _ _ _ (c1.1.trans hs) hw
        split_ifs at h <;> simp only [Option.some.injEq] at h <;> subst h <;>
          exact same_ring_trans h1 h2

/-! ## Lemmas: the mailbox wait -/

theorem wait_reply_fresh (blocks msg_num : Nat) (t0 : Int) (d : dev_context)
    (evs : List wait_event) (h : ¬ (d.message_table msg_num).time < t0) :
    wait_reply blocks msg_num t0 d evs = some (true, d) := by
  cases evs <;> simp [wait_reply, h]

theorem wait_reply_true_fresh (blocks msg_num : Nat) (t0 : Int) (evs : List wait_event) :
    ∀ (d d2 : dev_context),
      wait_reply blocks msg_num t0 d evs = some (true, d2) →
      t0 ≤ (d2.message_table msg_num).time := by
  induction evs with
  | nil =>
    intro d d2 h
    simp only [wait_reply] at h
    by_cases hst : (d.message_table msg_num).time < t0
    · simp [if_pos hst] at h
    · simp only [if_neg hst, Option.some.injEq, Prod.mk.injEq, true_and] at h
      subst h
      exact not_lt.mp hst
  | cons ev rest ih =>
    intro d d2 h
    simp only [wait_reply] at h
    by_cases hst : (d.message_table msg_num).time < t0
    · rw [if_pos hst] at h
      cases hd : dispatch blocks d ev.frames with
      | none => rw [hd] at h; exact absurd h (by simp)
      | some p =>
        obtain ⟨d3, ws⟩ := p
        rw [hd] at h
        by_cases hsig : ev.signalled = true
        · simp only [if_pos hsig] at h
          exact ih _ _ h
        · simp [if_neg hsig] at h
    · simp only [if_neg hst, Option.some.injEq, Prod.mk.injEq, true_and] at h
      subst h
      exact not_lt.mp hst

theorem wait_reply_stale_quiet (blocks msg_num : Nat) (t0 : Int) (d : dev_context)
    (evs : List wait_event) (hst : (d.message_table msg_num).time < t0)
    (hq : ∀ ev ∈ evs, ev.frames = []) :
    wait_reply blocks msg_num t0 d evs = some (false, d) := by
  induction evs with
  | nil => simp [wait_reply, hst]
  | cons ev rest ih =>
    have hev : ev.frames = [] := hq ev (List.mem_cons_self _ _)
    have hrest := ih (fun e he => hq e (List.mem_cons_of_mem _ he))
    simp only [wait_reply, if_pos hst, hev, dispatch]
    by_cases hsig : ev.signalled = true
    · simp only [if_pos hsig]
      exact hrest
    · simp only [if_neg hsig]

/-- What the callback does with a control frame whose indices are in range. -/
theorem receive_completed_control (blocks : Nat) (devc : dev_context) (now : Int)
    (tr : libusb_transfer)
    (hlo : sizeof_isn_proto_t ≤ tr.actual_length)
    (hhi : tr.actual_length ≤ MONODAQU_MAX_MESSAGE_SIZE)
    (hbuf : tr.actual_length ≤ tr.buffer.length)
    (hp : tr.buffer.getD 0 0 = 0x7F)
    (hm : tr.buffer.getD 1 0 ≤ MONODAQU_MAX_MESSAGE_ID) :
    receive_completed blocks devc now tr =
      some ({ devc with
              message_table := fun i =>
                if i = tr.buffer.getD 1 0 then
                  { time := now
                    sz := tr.actual_length
                    data := list_memcpy (devc.message_table (tr.buffer.getD 1 0)).data
                              tr.buffer tr.actual_length }
                else devc.message_table i }, false) := by
  unfold receive_completed
  simp only [if_pos hlo, if_pos hp, if_pos (And.intro hm (And.intro hhi hbuf))]

theorem receive_transfer_completed (blocks : Nat) (devc : dev_context) (now : Int)
    (tr : libusb_transfer) (d : dev_context) (w : Bool)
    (hst : tr.status = libusb_transfer_status.LIBUSB_TRANSFER_COMPLETED)
    (hc : receive_completed blocks devc now tr = some (d, w)) :
    receive_transfer blocks devc now tr = some { devc := d, warned := w, resubmitted := true } := by
  unfold receive_transfer
  rw [hst]
  simp only [hc]

/-! ## Lemmas: the iterations of the drain -/

theorem drain_step_flush (blocks : Nat) (st : drain_state) (h : no_room st) :
    drain_step blocks st =
      some { devc := { st.devc with digital_bl_out_idx := ring_next blocks st.idx }
             idx := ring_next blocks st.idx
             p_data := 0
             length := 0
             sent := session_send st } := by
  unfold no_room at h
  unfold drain_step
  simp only [if_pos h]

theorem drain_step_copy (blocks : Nat) (st : drain_state) (h : ¬ no_room st)
    (hb : copy_in_bounds blocks st) :
    drain_step blocks st =
      some { devc := { st.devc with
                       digital_buffer :=
                         mem_write st.devc.digital_buffer st.p_data
                           (block_bytes st.devc st.idx)
                       digital_bl_out_idx := ring_next blocks st.idx }
             idx := ring_next blocks st.idx
             p_data := st.p_data + st.devc.digital_samples_per_block
             length := st.length + st.devc.digital_samples_per_block
             sent := st.sent } := by
  unfold no_room at h
  unfold copy_in_bounds at hb
  unfold drain_step
  simp only [if_neg h, if_pos hb, block_bytes]

theorem drain_step_fault (blocks : Nat) (st : drain_state) (h : ¬ no_room st)
    (hb : ¬ copy_in_bounds blocks st) : drain_step blocks st = none := by
  unfold no_room at h
  unfold copy_in_bounds at hb
  unfold drain_step
  simp only [if_neg h, if_neg hb]

/-- What every iteration that has a result does to index and context. -/
theorem drain_step_frame (blocks : Nat) (st st1 : drain_state)
    (h : drain_step blocks st = some st1) :
    st1.idx = ring_next blocks st.idx ∧
    st1.devc.digital_bl_in_idx = st.devc.digital_bl_in_idx ∧
    st1.devc.digital_blocks = st.devc.digital_blocks ∧
    st1.devc.digital_samples_per_block = st.devc.digital_samples_per_block ∧
    st1.devc.state = st.devc.state ∧
    st1.devc.message_table = st.devc.message_table ∧
    st1.devc.sample_rate = st.devc.sample_rate ∧
    st1.devc.digital_bl_out_idx = ring_next blocks st.idx := by
  by_cases hr : no_room st
  · rw [drain_step_flush _ _ hr, Option.some.injEq] at h
    subst h
    exact ⟨rfl, rfl, rfl, rfl, rfl, rfl, rfl, rfl⟩
  · by_cases hb : copy_in_bounds blocks st
    · rw [drain_step_copy _ _ hr hb, Option.some.injEq] at h
      subst h
      exact ⟨rfl, rfl, rfl, rfl, rfl, rfl, rfl, rfl⟩
    · rw [drain_step_fault _ _ hr hb] at h
      exact absurd h (by simp)

theorem drain_loop_step (blocks fuel : Nat) (st st1 : drain_state)
    (he : st.idx ≠ st.devc.digital_bl_in_idx) (h : drain_step blocks st = some st1) :
    drain_loop blocks (fuel + 1) st = drain_loop blocks fuel st1 := by
  rw [drain_loop, if_neg he]
  simp only [h]

/-- Loop rule for the drain: when every iteration has a result and keeps a
property, the loop ends with the property once fuel covers the distance to the
write index. -/
theorem drain_loop_rule (blocks : Nat) (P : drain_state → Prop)
    (hstep : ∀ st, P st → st.idx < blocks → st.devc.digital_bl_in_idx < blocks →
      st.idx ≠ st.devc.digital_bl_in_idx →
      ∃ st1, drain_step blocks st = some st1 ∧ P st1) :
    ∀ (fuel : Nat) (st : drain_state), P st → st.idx < blocks →
      st.devc.digital_bl_in_idx < blocks →
      ring_dist blocks st.idx st.devc.digital_bl_in_idx ≤ fuel →
      ∃ st2, drain_loop blocks fuel st = some st2 ∧ P st2 ∧
        st2.idx = st2.devc.digital_bl_in_idx ∧
        st2.devc.digital_bl_in_idx = st.devc.digital_bl_in_idx := by
  intro fuel
  induction fuel with
  | zero =>
    intro st hP hi hw hd
    have he : st.idx = st.devc.digital_bl_in_idx :=
      ring_dist_zero _ _ _ hi (Nat.le_zero.mp hd)
    exact ⟨st, drain_loop_done _ _ _ he, hP, he, rfl⟩
  | succ fuel ih =>
    intro st hP hi hw hd
    by_cases he : st.idx = st.devc.digital_bl_in_idx
    · exact ⟨st, drain_loop_done _ _ _ he, hP, he, rfl⟩
    · obtain ⟨st1, hs, hP1⟩ := hstep st hP hi hw he
      have hf := drain_step_frame blocks st st1 hs
      have hdist := ring_dist_next blocks st.idx st.devc.digital_bl_in_idx hi hw he
      obtain ⟨st2, h1, h2, h3, h4⟩ := ih st1 hP1
        (by rw [hf.1]; exact ring_next_lt _ _ hi) (by rw [hf.2.1]; exact hw)
        (by rw [hf.1, hf.2.1]; omega)
      refine ⟨st2, ?_, h2, h3, h4.trans hf.2.1⟩
      rw [drain_loop_step _ _ _ _ he hs]
      exact h1

theorem no_room_iff (st : drain_state) (hl : st.length ≤ MONODAQ_U_DIGITAL_BUFFER_SIZE) :
    no_room st ↔
      MONODAQ_U_DIGITAL_BUFFER_SIZE - st.length < st.devc.digital_samples_per_block := by
  unfold no_room
  unfold MONODAQ_U_DIGITAL_BUFFER_SIZE SIZE_MOD at *
  norm_num
  omega

theorem drain_step_fits (blocks s w : Nat) (B : Nat → Nat) (target : List Nat)
    (hs : s ≤ MONODAQ_U_DIGITAL_PACKET_SIZE)
    (st : drain_state) (h : fits_inv blocks s w B target st)
    (hi : st.idx < blocks) (hw : w < blocks) (hne : st.idx ≠ w) :
    ∃ st1, drain_step blocks st = some st1 ∧ fits_inv blocks s w B target st1 := by
  obtain ⟨h1, h2, h3, h4, h5, h6, h7, h8⟩ := h
  have hdist := ring_dist_next blocks st.idx w hi hw hne
  rw [← hdist] at h7 h8
  have hmul : (ring_dist blocks (ring_next blocks st.idx) w + 1) * s
      = ring_dist blocks (ring_next blocks st.idx) w * s + s := Nat.succ_mul _ _
  rw [hmul] at h7
  have hlen : st.length ≤ MONODAQ_U_DIGITAL_BUFFER_SIZE := by omega
  have hr : ¬ no_room st := by
    rw [no_room_iff st hlen, h3]
    omega
  have hb : copy_in_bounds blocks st := ⟨hi, by rw [h3]; exact hs, by rw [h2, h3]; omega⟩
  refine ⟨_, drain_step_copy _ _ hr hb, ?_⟩
  refine ⟨h1, ?_, h3, h4, h5, rfl, ?_, ?_⟩
  · show st.p_data + st.devc.digital_samples_per_block
      = st.length + st.devc.digital_samples_per_block
    rw [h2]
  · show st.length + st.devc.digital_samples_per_block
      + ring_dist blocks (ring_next blocks st.idx) w * s ≤ MONODAQ_U_DIGITAL_BUFFER_SIZE
    rw [h3]; omega
  · show mem_read (mem_write st.devc.digital_buffer st.p_data (block_bytes st.devc st.idx)) 0
        (st.length + st.devc.digital_samples_per_block) ++
      ((ring_walk blocks (ring_dist blocks (ring_next blocks st.idx) w)
        (ring_next blocks st.idx)).map (fun i => mem_read B (block_off i) s)).flatten = target
    have hbl : (block_bytes st.devc st.idx).length = st.devc.digital_samples_per_block :=
      mem_read_length _ _ _
    have hbb : block_bytes st.devc st.idx = mem_read B (block_off st.idx) s := by
      unfold block_bytes
      rw [h3, h4]
    rw [mem_read_append, h2, Nat.zero_add]
    have e1 : mem_read (mem_write st.devc.digital_buffer st.length (block_bytes st.devc st.idx))
        0 st.length = mem_read st.devc.digital_buffer 0 st.length := by
      apply mem_read_congr
      intro a _ ha
      exact mem_write_outside _ _ _ _ (Or.inl (by omega))
    have e2 : mem_read (mem_write st.devc.digital_buffer st.length (block_bytes st.devc st.idx))
        st.length st.devc.digital_samples_per_block = block_bytes st.devc st.idx := by
      have := mem_read_write_same st.devc.digital_buffer st.length (block_bytes st.devc st.idx)
      rw [hbl] at this
      exact this
    rw [e1, e2, hbb, ← h8]
    simp [ring_walk, List.append_assoc]

/-- When all queued blocks fit into the scratch buffer together (blocks of at
most 48 samples), the drain sends them as one packet (none when the queue is
empty or blocks are empty). -/
theorem send_data_fits (blocks fuel : Nat) (devc : dev_context)
    (hin : devc.digital_bl_in_idx < blocks) (hout : devc.digital_bl_out_idx < blocks)
    (hfuel : blocks ≤ fuel)
    (hs : devc.digital_samples_per_block ≤ MONODAQ_U_DIGITAL_PACKET_SIZE)
    (hfit : ring_dist blocks devc.digital_bl_out_idx devc.digital_bl_in_idx
        * devc.digital_samples_per_block ≤ MONODAQ_U_DIGITAL_BUFFER_SIZE) :
    ∃ d, monodaq_u_send_data blocks fuel devc
        = some (d, if (queued_bytes blocks devc).length = 0 then []
                   else [{ length := (queued_bytes blocks devc).length, unitsize := 1,
                           data := queued_bytes blocks devc }]) ∧
      d.digital_bl_out_idx = devc.digital_bl_in_idx ∧
      d.digital_bl_in_idx = devc.digital_bl_in_idx ∧
      d.digital_blocks = devc.digital_blocks := by
  have hd := ring_dist_lt blocks devc.digital_bl_out_idx devc.digital_bl_in_idx hout hin
  have hinv0 : fits_inv blocks devc.digital_samples_per_block devc.digital_bl_in_idx
      devc.digital_blocks (queued_bytes blocks devc)
      { devc := devc, idx := devc.digital_bl_out_idx, p_data := 0, length := 0, sent := [] } := by
    refine ⟨rfl, rfl, rfl, rfl, rfl, rfl, ?_, ?_⟩
    · simp only [Nat.zero_add]; exact hfit
    · show mem_read devc.digital_buffer 0 0 ++ _ = _
      rfl
  obtain ⟨st2, hl, hP, hidx, hin2⟩ := drain_loop_rule blocks
    (fits_inv blocks devc.digital_samples_per_block devc.digital_bl_in_idx
      devc.digital_blocks (queued_bytes blocks devc))
    (fun st hP hi hw hne => drain_step_fits blocks _ _ _ _ hs st hP hi (hP.2.2.2.2.1 ▸ hw)
      (hP.2.2.2.2.1 ▸ hne))
    fuel _ hinv0 hout hin (by simp only []; omega)
  simp only [] at hin2
  obtain ⟨h1, h2, h3, h4, h5, h6, h7, h8⟩ := hP
  have hz : ring_dist blocks st2.idx devc.digital_bl_in_idx = 0 := by
    rw [hidx, h5]
    simp [ring_dist]
  rw [hz] at h8
  simp only [ring_walk, List.map_nil, List.flatten_nil, List.append_nil] at h8
  have hlen : (queued_bytes blocks devc).length = st2.length := by
    rw [← h8, mem_read_length]
  refine ⟨st2.devc, ?_, by rw [h6, hidx, h5], h5, h4⟩
  unfold monodaq_u_send_data
  simp only [hl]
  by_cases hzl : st2.length = 0
  · simp [hzl, hlen, h1]
  · simp [hzl, hlen, h1, session_send, h8]

/-! ## Lemmas: storing digital data frames -/

theorem frame_payload_length (tr : libusb_transfer) (h : digital_frame tr) :
    (frame_payload tr).length = payload_len (tr.buffer.getD 4 0) := by
  obtain ⟨_, _, _, _, _, h6⟩ := h
  unfold frame_payload
  rw [List.length_take, List.length_drop]
  omega

theorem frame_payload_le (tr : libusb_transfer) (h : digital_frame tr) :
    (frame_payload tr).length ≤ MONODAQ_U_DIGITAL_PACKET_SIZE := by
  rw [frame_payload_length tr h]
  exact h.2.2.2.2.1

/-- A digital data frame arriving while sampling with a free slot is stored in
the slot after the write index, which then becomes the write index. -/
theorem receive_transfer_admit (blocks : Nat) (devc : dev_context) (now : Int)
    (tr : libusb_transfer) (hs : devc.state = dev_state_t.M_STATE_SAMPLING)
    (hf : digital_frame tr)
    (hfree : ring_next blocks devc.digital_bl_in_idx ≠ devc.digital_bl_out_idx)
    (hlt : ring_next blocks devc.digital_bl_in_idx < blocks) :
    receive_transfer blocks devc now tr =
      some { devc := { devc with
                       digital_blocks :=
                         mem_write devc.digital_blocks
                           (block_off (ring_next blocks devc.digital_bl_in_idx))
                           (frame_payload tr)
                       digital_bl_in_idx := ring_next blocks devc.digital_bl_in_idx }
             warned := false, resubmitted := true } := by
  obtain ⟨h1, h2, h3, h4, h5, h6⟩ := hf
  apply receive_transfer_completed _ _ _ _ _ _ h1
  have hlo : sizeof_isn_proto_t ≤ tr.actual_length :=
    le_trans (by decide) h4
  have hnc : ¬ tr.buffer.getD 0 0 = 0x7F := by
    rw [h2]; decide
  unfold receive_completed
  simp only [if_pos hlo, if_neg hnc, if_pos (And.intro hs (And.intro h2 h4)), if_pos h3,
    if_neg hfree, if_pos (And.intro hlt (And.intro h5 h6)), frame_payload]

/-- A digital data frame arriving while sampling with no free slot is dropped
with a warning and changes nothing. -/
theorem receive_transfer_full (blocks : Nat) (devc : dev_context) (now : Int)
    (tr : libusb_transfer) (hs : devc.state = dev_state_t.M_STATE_SAMPLING)
    (hf : digital_frame tr)
    (hfull : ring_next blocks devc.digital_bl_in_idx = devc.digital_bl_out_idx) :
    receive_transfer blocks devc now tr =
      some { devc := devc, warned := true, resubmitted := true } := by
  obtain ⟨h1, h2, h3, h4, h5, h6⟩ := hf
  apply receive_transfer_completed _ _ _ _ _ _ h1
  have hlo : sizeof_isn_proto_t ≤ tr.actual_length :=
    le_trans (by decide) h4
  have hnc : ¬ tr.buffer.getD 0 0 = 0x7F := by
    rw [h2]; decide
  unfold receive_completed
  simp only [if_pos hlo, if_neg hnc, if_pos (And.intro hs (And.intro h2 h4)), if_pos h3,
    if_pos hfull]

theorem dispatch_append (blocks : Nat) (fs1 fs2 : List (Int × libusb_transfer)) :
    ∀ (d d1 d2 : dev_context) (ws1 ws2 : List Bool),
      dispatch blocks d fs1 = some (d1, ws1) → dispatch blocks d1 fs2 = some (d2, ws2) →
      dispatch blocks d (fs1 ++ fs2) = some (d2, ws1 ++ ws2) := by
  induction fs1 with
  | nil =>
    intro d d1 d2 ws1 ws2 h1 h2
    simp only [dispatch, Option.some.injEq, Prod.mk.injEq] at h1
    obtain ⟨rfl, rfl⟩ := h1
    simpa using h2
  | cons f rest ih =>
    intro d d1 d2 ws1 ws2 h1 h2
    simp only [dispatch] at h1
    cases hr : receive_transfer blocks d f.1 f.2 with
    | none => rw [hr] at h1; exact absurd h1 (by simp)
    | some r =>
      rw [hr] at h1
      simp only [] at h1
      cases hd : dispatch blocks r.devc rest with
      | none => rw [hd] at h1; exact absurd h1 (by simp)
      | some p =>
        obtain ⟨d3, ws3⟩ := p
        rw [hd] at h1
        simp only [Option.some.injEq, Prod.mk.injEq] at h1
        obtain ⟨rfl, rfl⟩ := h1
        have := ih _ _ _ _ _ hd h2
        show dispatch blocks d (f :: (rest ++ fs2)) = _
        simp only [dispatch, hr, this]
        rfl

theorem dispatch_full (blocks : Nat) (fs : List (Int × libusb_transfer)) (d : dev_context)
    (hs : d.state = dev_state_t.M_STATE_SAMPLING)
    (hfull : ring_next blocks d.digital_bl_in_idx = d.digital_bl_out_idx)
    (hwf : ∀ f ∈ fs, digital_frame f.2) :
    dispatch blocks d fs = some (d, List.replicate fs.length true) := by
  induction fs with
  | nil => simp [dispatch]
  | cons f rest ih =>
    have h1 := receive_transfer_full blocks d f.1 f.2 hs (hwf f (List.mem_cons_self _ _)) hfull
    have h2 := ih (fun g hg => hwf g (List.mem_cons_of_mem _ hg))
    simp only [dispatch, h1, h2, List.length_cons, List.replicate_succ]

theorem mod_two (x n : Nat) (h : x < 2 * n) : x % n = if x < n then x else x - n := by
  split_ifs with h1
  · exact Nat.mod_eq_of_lt h1
  · rw [Nat.mod_eq_sub_mod (by omega), Nat.mod_eq_of_lt (by omega)]

theorem slot_ne (n r i j : Nat) (hr : r < n) (hi : i < j) (hj : j < n) :
    (r + i) % n ≠ (r + j) % n := by
  rw [mod_two (r + i) n (by omega), mod_two (r + j) n (by omega)]
  split_ifs <;> omega

theorem block_disjoint (i j a len : Nat) (hne : i ≠ j) (hlen : len ≤ MONODAQ_U_DIGITAL_PACKET_SIZE)
    (h1 : block_off i ≤ a) (h2 : a < block_off i + len) :
    a < block_off j ∨ block_off j + MONODAQ_U_DIGITAL_PACKET_SIZE ≤ a := by
  unfold block_off MONODAQ_U_DIGITAL_PACKET_SIZE at *
  omega

/-- A run of digital data frames that all find a free slot: frame k of the run
lands in slot (r + m + 1 + k) mod blocks, where r is the read index and m the
number of blocks queued before the run. -/
theorem dispatch_admit (blocks r : Nat) (hr : r < blocks) (fs : List (Int × libusb_transfer)) :
    ∀ (m : Nat) (d : dev_context),
      d.state = dev_state_t.M_STATE_SAMPLING → d.digital_bl_out_idx = r →
      d.digital_bl_in_idx = (r + m) % blocks → m + fs.length + 1 ≤ blocks →
      (∀ f ∈ fs, digital_frame f.2) →
      ∃ d2, dispatch blocks d fs = some (d2, List.replicate fs.length false) ∧
        d2.state = dev_state_t.M_STATE_SAMPLING ∧ d2.digital_bl_out_idx = r ∧
        d2.digital_bl_in_idx = (r + m + fs.length) % blocks ∧
        (∀ a, (∀ k, k < fs.length →
            a < block_off ((r + m + 1 + k) % blocks) ∨
            block_off ((r + m + 1 + k) % blocks) + MONODAQ_U_DIGITAL_PACKET_SIZE ≤ a) →
          d2.digital_blocks a = d.digital_blocks a) ∧
        (∀ k f, fs[k]? = some f →
          mem_read d2.digital_blocks (block_off ((r + m + 1 + k) % blocks))
            (frame_payload f.2).length = frame_payload f.2) := by
  induction fs with
  | nil =>
    intro m d hs ho hi _ _
    exact ⟨d, by simp [dispatch], hs, ho, by simpa using hi, fun _ _ => rfl,
      fun k f hk => by simp at hk⟩
  | cons f rest ih =>
    intro m d hs ho hi hm hwf
    simp only [List.length_cons] at hm
    have hpos : 0 < blocks := by omega
    have hf := hwf f (List.mem_cons_self _ _)
    have hinlt : d.digital_bl_in_idx < blocks := by rw [hi]; exact Nat.mod_lt _ hpos
    have hidx : ring_next blocks d.digital_bl_in_idx = (r + m + 1) % blocks := by
      rw [ring_next_eq_mod _ _ hinlt, hi, Nat.mod_add_mod]
    have hfree : ring_next blocks d.digital_bl_in_idx ≠ d.digital_bl_out_idx := by
      rw [hidx, ho]
      have := slot_ne blocks r 0 (m + 1) hr (by omega) (by omega)
      simp only [Nat.add_zero, Nat.mod_eq_of_lt hr] at this
      rw [Nat.add_assoc]
      exact fun h => this h.symm
    have hlt : ring_next blocks d.digital_bl_in_idx < blocks := by
      rw [hidx]; exact Nat.mod_lt _ hpos
    have h1 := receive_transfer_admit blocks d f.1 f.2 hs hf hfree hlt
    rw [hidx] at h1
    obtain ⟨d2, g1, g2, g3, g4, g5, g6⟩ := ih (m + 1) _
      (show ({ d with
                digital_blocks := mem_write d.digital_blocks
                  (block_off ((r + m + 1) % blocks)) (frame_payload f.2)
                digital_bl_in_idx := (r + m + 1) % blocks } : dev_context).state
            = dev_state_t.M_STATE_SAMPLING from hs)
      ho (by simp only [Nat.add_assoc]) (by omega)
      (fun g hg => hwf g (List.mem_cons_of_mem _ hg))
    have hple := frame_payload_le f.2 hf
    refine ⟨d2, ?_, g2, g3, ?_, ?_, ?_⟩
    · simp only [dispatch, h1, g1, List.length_cons, List.replicate_succ]
    · rw [g4, List.length_cons]
      congr 1
      omega
    · intro a ha
      have e1 : d2.digital_blocks a = mem_write d.digital_blocks
          (block_off ((r + m + 1) % blocks)) (frame_payload f.2) a := by
        apply g5
        intro k hk
        have := ha (k + 1) (by simp only [List.length_cons]; omega)
        have e : r + (m + 1) + 1 + k = r + m + 1 + (k + 1) := by omega
        rw [e]
        exact this
      rw [e1]
      apply mem_write_outside
      have h0 := ha 0 (by simp)
      simp only [Nat.add_zero] at h0
      omega
    · intro k g hk
      cases k with
      | zero =>
        simp only [List.getElem?_cons_zero, Option.some.injEq] at hk
        subst hk
        simp only [Nat.add_zero]
        have e1 : mem_read d2.digital_blocks (block_off ((r + m + 1) % blocks))
            (frame_payload f.2).length
            = mem_read (mem_write d.digital_blocks (block_off ((r + m + 1) % blocks))
                (frame_payload f.2)) (block_off ((r + m + 1) % blocks))
                (frame_payload f.2).length := by
          apply mem_read_congr
          intro a ha1 ha2
          apply g5
          intro k hk2
          have hne : (r + m + 1) % blocks ≠ (r + (m + 1) + 1 + k) % blocks := by
            have := slot_ne blocks r (m + 1) (m + 1 + 1 + k) hr (by omega) (by omega)
            simpa only [Nat.add_assoc] using this
          exact block_disjoint _ _ a _ hne hple ha1 ha2
        rw [e1, mem_read_write_same]
      | succ k =>
        simp only [List.getElem?_cons_succ] at hk
        have := g6 k g hk
        have e : r + (m + 1) + 1 + k = r + m + 1 + (k + 1) := by omega
        rw [e] at this
        exact this

theorem value_frame_payload_len (v : Nat) :
    payload_len ((value_frame v).buffer.getD 4 0) = 48 := by
  show payload_len 0xB2 = 48
  decide

theorem value_frame_digital (v : Nat) : digital_frame (value_frame v) := by
  refine ⟨rfl, rfl, rfl, ?_, ?_, ?_⟩
  · show sizeof_isn_proto_long_t ≤ 56
    decide
  · rw [value_frame_payload_len]; decide
  · rw [value_frame_payload_len]
    simp [value_frame, sizeof_isn_proto_long_t]

theorem value_frame_payload (v : Nat) : frame_payload (value_frame v) = List.replicate 48 v := by
  unfold frame_payload
  rw [value_frame_payload_len]
  simp [value_frame, sizeof_isn_proto_long_t]

/-- Filling an empty ring: the first blocks - 1 frames are stored in the slots
after the read index, every later frame is dropped with a warning. -/
theorem ring_overflow (blocks : Nat) (devc : dev_context)
    (fs1 fs2 : List (Int × libusb_transfer))
    (hs : devc.state = dev_state_t.M_STATE_SAMPLING)
    (hempty : devc.digital_bl_in_idx = devc.digital_bl_out_idx)
    (hr : devc.digital_bl_out_idx < blocks)
    (hlen : fs1.length + 1 = blocks)
    (hwf1 : ∀ f ∈ fs1, digital_frame f.2) (hwf2 : ∀ f ∈ fs2, digital_frame f.2) :
    ∃ d, dispatch blocks devc (fs1 ++ fs2)
          = some (d, List.replicate fs1.length false ++ List.replicate fs2.length true) ∧
      d.digital_bl_out_idx = devc.digital_bl_out_idx ∧
      d.digital_bl_in_idx = (devc.digital_bl_out_idx + fs1.length) % blocks ∧
      (∀ a, (∀ k, k < fs1.length →
          a < block_off ((devc.digital_bl_out_idx + 1 + k) % blocks) ∨
          block_off ((devc.digital_bl_out_idx + 1 + k) % blocks)
            + MONODAQ_U_DIGITAL_PACKET_SIZE ≤ a) →
        d.digital_blocks a = devc.digital_blocks a) ∧
      (∀ k f, fs1[k]? = some f →
        mem_read d.digital_blocks (block_off ((devc.digital_bl_out_idx + 1 + k) % blocks))
          (frame_payload f.2).length = frame_payload f.2) := by
  obtain ⟨d2, g1, g2, g3, g4, g5, g6⟩ := dispatch_admit blocks devc.digital_bl_out_idx hr fs1 0
    devc hs rfl (by rw [hempty, Nat.add_zero, Nat.mod_eq_of_lt hr]) (by omega) hwf1
  simp only [Nat.add_zero] at g4 g5 g6
  have hfull : ring_next blocks d2.digital_bl_in_idx = d2.digital_bl_out_idx := by
    have hpos : 0 < blocks := by omega
    rw [ring_next_eq_mod _ _ (by rw [g4]; exact Nat.mod_lt _ hpos), g4, g3, Nat.mod_add_mod,
      Nat.add_assoc, hlen, Nat.add_mod_right, Nat.mod_eq_of_lt hr]
  have h2 := dispatch_full blocks fs2 d2 g2 hfull hwf2
  exact ⟨d2, dispatch_append _ _ _ _ _ _ _ _ g1 h2, g3, g4, g5, g6⟩

/-! ## Lemmas: acquisition start and stop -/

/-- A start that returns SR_OK has issued all four exchanges and leaves the
context sampling with the read index at 0. -/
theorem start_acquire_ok (blocks : Nat) (devc : dev_context) (e1 e2 e3 e4 : xfer_env)
    (a : acquire_result)
    (h : monodaq_u_start_acquire blocks devc e1 e2 e3 e4 = some a)
    (hok : a.ret = sr_ret.SR_OK) :
    a.devc.state = dev_state_t.M_STATE_SAMPLING ∧ a.devc.digital_bl_out_idx = 0 ∧
    a.exchanges = 4 := by
  unfold monodaq_u_start_acquire at h
  simp only [] at h
  cases h1 : do_request blocks devc (isn_struct MONDAQ_U_MSG_RATE sizeof_ins_rates_t)
      sizeof_ins_rates_t e1 with
  | none => rw [h1] at h; exact absurd h (by simp)
  | some r1 =>
    rw [h1] at h
    simp only [] at h
    by_cases c1 : r1.ret ≠ sr_ret.SR_OK
    · rw [if_pos c1] at h
      simp only [Option.some.injEq] at h
      subst h
      exact absurd hok c1
    · rw [if_neg c1] at h
      cases h2 : do_command blocks r1.devc
          (set_bytes r1.command 2 (le32 (r1.devc.sample_rate % 2 ^ 32)))
          sizeof_ins_rates_t e2 with
      | none => rw [h2] at h; exact absurd h (by simp)
      | some r2 =>
        rw [h2] at h
        simp only [] at h
        by_cases c2 : r2.ret ≠ sr_ret.SR_OK
        · rw [if_pos c2] at h
          simp only [Option.some.injEq] at h
          subst h
          exact absurd hok c2
        · rw [if_neg c2] at h
          cases h3 : do_request blocks r2.devc
              (isn_struct MONDAQ_U_MSG_DAQ_AD sizeof_daq_ad_t) sizeof_daq_ad_t e3 with
          | none => rw [h3] at h; exact absurd h (by simp)
          | some r3 =>
            rw [h3] at h
            simp only [] at h
            by_cases c3 : r3.ret ≠ sr_ret.SR_OK
            · rw [if_pos c3] at h
              simp only [Option.some.injEq] at h
              subst h
              exact absurd hok c3
            · rw [if_neg c3] at h
              generalize hd : ({ r3.devc with
                  digital_samples_per_block := r3.command.getD 11 0
                  digital_bl_in_idx := 0
                  digital_bl_out_idx := 0
                  state := dev_state_t.M_STATE_SAMPLING } : dev_context) = d4 at h
              have hd1 : d4.state = dev_state_t.M_STATE_SAMPLING := by rw [← hd]
              have hd2 : d4.digital_bl_out_idx = 0 := by rw [← hd]
              cases h4 : do_command blocks d4
                  (set_bytes (set_bytes (isn_struct MONDAQ_U_MSG_DAQ_TRIGGER
                    sizeof_daq_trigger_t) 6 (le32 0)) 2 (le32 1))
                  sizeof_daq_trigger_t e4 with
              | none => rw [h4] at h; exact absurd h (by simp)
              | some r4 =>
                rw [h4] at h
                simp only [] at h
                have hc := xfer_command_consumer _ _ _ _ _ _ _ h4
                by_cases c4 : r4.ret ≠ sr_ret.SR_OK
                · rw [if_pos c4] at h
                  simp only [Option.some.injEq] at h
                  subst h
                  exact absurd hok c4
                · rw [if_neg c4] at h
                  simp only [Option.some.injEq] at h
                  subst h
                  exact ⟨hc.1.trans hd1, hc.2.1.trans hd2, rfl⟩

/-- Whatever the stop exchange does, the context it leaves is stopped and its
ring is as before the stop. -/
theorem stop_acquire_stopped (blocks : Nat) (devc : dev_context) (e : xfer_env)
    (a : acquire_result) (h : monodaq_u_stop_acquire blocks devc e = some a) :
    a.devc.state = dev_state_t.M_STATE_STOPPED ∧
    a.devc.digital_bl_in_idx = devc.digital_bl_in_idx ∧
    a.devc.digital_bl_out_idx = devc.digital_bl_out_idx ∧
    a.devc.digital_blocks = devc.digital_blocks ∧
    a.devc.digital_samples_per_block = devc.digital_samples_per_block := by
  unfold monodaq_u_stop_acquire at h
  simp only [] at h
  generalize hd : ({ devc with state := dev_state_t.M_STATE_STOPPED } : dev_context) = d1 at h
  have hd1 : d1.state = dev_state_t.M_STATE_STOPPED := by rw [← hd]
  cases h1 : do_command blocks d1
      (set_bytes (set_bytes (isn_struct MONDAQ_U_MSG_DAQ_TRIGGER sizeof_daq_trigger_t) 6
        (le32 0)) 2 (le32 0)) sizeof_daq_trigger_t e with
  | none => rw [h1] at h; exact absurd h (by simp)
  | some r =>
    rw [h1] at h
    simp only [] at h
    have hc := xfer_command_consumer _ _ _ _ _ _ _ h1
    have hr := xfer_command_stopped _ _ _ _ _ _ _ hd1 h1
    have hres : a.devc = r.devc := by
      split_ifs at h <;> simp only [Option.some.injEq] at h <;> subst h <;> rfl
    rw [hres]
    refine ⟨hc.1.trans hd1, ?_, ?_, ?_, ?_⟩
    · rw [hr.1, ← hd]
    · rw [hc.2.1, ← hd]
    · rw [hr.2, ← hd]
    · rw [hc.2.2.1, ← hd]

/-- While stopped, the callback fails only on a control frame whose slot index
or length is out of range. -/
theorem receive_transfer_stopped_none (blocks : Nat) (devc : dev_context) (now : Int)
    (tr : libusb_transfer) (hs : devc.state = dev_state_t.M_STATE_STOPPED)
    (h : receive_transfer blocks devc now tr = none) :
    tr.status = libusb_transfer_status.LIBUSB_TRANSFER_COMPLETED ∧
    sizeof_isn_proto_t ≤ tr.actual_length ∧
    tr.buffer.getD 0 0 = 0x7F ∧
    ¬ (tr.buffer.getD 1 0 ≤ MONODAQU_MAX_MESSAGE_ID ∧
       tr.actual_length ≤ MONODAQU_MAX_MESSAGE_SIZE ∧
       tr.actual_length ≤ tr.buffer.length) := by
  have hns : ¬ (devc.state = dev_state_t.M_STATE_SAMPLING
      ∧ tr.buffer.getD 0 0 = MONDAQ_U_ADC_PROTOCOL_ID
      ∧ sizeof_isn_proto_long_t ≤ tr.actual_length) := by
    rw [hs]
    exact fun hc => absurd hc.1 (by decide)
  unfold receive_transfer at h
  split at h
  · rename_i hst
    refine ⟨hst, ?_⟩
    cases hc : receive_completed blocks devc now tr with
    | some p => rw [hc] at h; exact absurd h (by simp)
    | none =>
      unfold receive_completed at hc
      simp only [if_neg hns] at hc
      split_ifs at hc with c1 c2 c3
      exact ⟨c1, c2, c3⟩
  · exact absurd h (by simp)
  · exact absurd h (by simp)

/-! ## Lemmas: admission of data frames -/

theorem receive_completed_changes_ring (blocks : Nat) (devc : dev_context) (now : Int)
    (tr : libusb_transfer) (d : dev_context) (w : Bool)
    (h : receive_completed blocks devc now tr = some (d, w))
    (hch : d.digital_bl_in_idx ≠ devc.digital_bl_in_idx ∨
      d.digital_blocks ≠ devc.digital_blocks) :
    admission blocks devc tr := by
  unfold receive_completed at h
  simp only [] at h
  by_cases c1 : sizeof_isn_proto_t ≤ tr.actual_length
  · rw [if_pos c1] at h
    by_cases c2 : tr.buffer.getD 0 0 = 0x7F
    · rw [if_pos c2] at h
      split_ifs at h
      simp only [Option.some.injEq, Prod.mk.injEq] at h
      obtain ⟨rfl, _⟩ := h
      rcases hch with hch | hch <;> exact absurd rfl hch
    · rw [if_neg c2] at h
      by_cases c3 : devc.state = dev_state_t.M_STATE_SAMPLING
          ∧ tr.buffer.getD 0 0 = MONDAQ_U_ADC_PROTOCOL_ID
          ∧ sizeof_isn_proto_long_t ≤ tr.actual_length
      · rw [if_pos c3] at h
        by_cases c4 : tr.buffer.getD 1 0 = MONDAQ_U_DIGITAL_CHANNEL_ID
        · rw [if_pos c4] at h
          by_cases c5 : ring_next blocks devc.digital_bl_in_idx = devc.digital_bl_out_idx
          · rw [if_pos c5] at h
            simp only [Option.some.injEq, Prod.mk.injEq] at h
            obtain ⟨rfl, _⟩ := h
            rcases hch with hch | hch <;> exact absurd rfl hch
          · exact ⟨c3.1, c3.2.1, c4, c3.2.2, c5⟩
        · rw [if_neg c4] at h
          simp only [Option.some.injEq, Prod.mk.injEq] at h
          obtain ⟨rfl, _⟩ := h
          rcases hch with hch | hch <;> exact absurd rfl hch
      · rw [if_neg c3] at h
        simp only [Option.some.injEq, Prod.mk.injEq] at h
        obtain ⟨rfl, _⟩ := h
        rcases hch with hch | hch <;> exact absurd rfl hch
  · rw [if_neg c1] at h
    simp only [Option.some.injEq, Prod.mk.injEq] at h
    obtain ⟨rfl, _⟩ := h
    rcases hch with hch | hch <;> exact absurd rfl hch

/-- A completed transfer that is no control frame and fails an admission test
leaves the context as it is; the warning is logged exactly when the only test
failed is the one for a free slot. -/
theorem receive_completed_passed_over (blocks : Nat) (devc : dev_context) (now : Int)
    (tr : libusb_transfer)
    (hnc : ¬ (sizeof_isn_proto_t ≤ tr.actual_length ∧ tr.buffer.getD 0 0 = 0x7F))
    (hna : ¬ admission blocks devc tr) :
    ∃ w, receive_completed blocks devc now tr = some (devc, w) ∧
      (w = true ↔
        (devc.state = dev_state_t.M_STATE_SAMPLING ∧
         tr.buffer.getD 0 0 = MONDAQ_U_ADC_PROTOCOL_ID ∧
         tr.buffer.getD 1 0 = MONDAQ_U_DIGITAL_CHANNEL_ID ∧
         sizeof_isn_proto_long_t ≤ tr.actual_length ∧
         ring_next blocks devc.digital_bl_in_idx = devc.digital_bl_out_idx)) := by
  unfold receive_completed
  simp only []
  by_cases c1 : sizeof_isn_proto_t ≤ tr.actual_length
  · have c2 : ¬ tr.buffer.getD 0 0 = 0x7F := fun h => hnc ⟨c1, h⟩
    rw [if_pos c1, if_neg c2]
    by_cases c3 : devc.state = dev_state_t.M_STATE_SAMPLING
        ∧ tr.buffer.getD 0 0 = MONDAQ_U_ADC_PROTOCOL_ID
        ∧ sizeof_isn_proto_long_t ≤ tr.actual_length
    · rw [if_pos c3]
      by_cases c4 : tr.buffer.getD 1 0 = MONDAQ_U_DIGITAL_CHANNEL_ID
      · rw [if_pos c4]
        by_cases c5 : ring_next blocks devc.digital_bl_in_idx = devc.digital_bl_out_idx
        · rw [if_pos c5]
          exact ⟨true, rfl, fun _ => ⟨c3.1, c3.2.1, c4, c3.2.2, c5⟩, fun _ => rfl⟩
        · exact absurd ⟨c3.1, c3.2.1, c4, c3.2.2, c5⟩ hna
      · rw [if_neg c4]
        exact ⟨false, rfl, fun h => absurd h (by simp), fun h => absurd h.2.2.1 c4⟩
    · rw [if_neg c3]
      exact ⟨false, rfl, fun h => absurd h (by simp),
        fun h => absurd ⟨h.1, h.2.1, h.2.2.2.1⟩ c3⟩
  · rw [if_neg c1]
    refine ⟨false, rfl, fun h => absurd h (by simp), fun h => ?_⟩
    exact absurd (le_trans (by decide) h.2.2.2.1) c1

/-! ## Lemmas: what an exchange leaves of the context -/

theorem wait_reply_dispatch (blocks msg_num : Nat) (t0 : Int) (evs : List wait_event) :
    ∀ (d d2 : dev_context) (b : Bool),
      wait_reply blocks msg_num t0 d evs = some (b, d2) →
      ∃ fs ws, dispatch blocks d fs = some (d2, ws) := by
  induction evs with
  | nil =>
    intro d d2 b h
    simp only [wait_reply] at h
    split_ifs at h <;> simp only [Option.some.injEq, Prod.mk.injEq] at h <;>
      (obtain ⟨_, rfl⟩ := h; exact ⟨[], [], rfl⟩)
  | cons ev rest ih =>
    intro d d2 b h
    simp only [wait_reply] at h
    by_cases hst : (d.message_table msg_num).time < t0
    · rw [if_pos hst] at h
      cases hd : dispatch blocks d ev.frames with
      | none => rw [hd] at h; exact absurd h (by simp)
      | some p =>
        obtain ⟨d3, ws⟩ := p
        rw [hd] at h
        by_cases hsig : ev.signalled = true
        · simp only [if_pos hsig] at h
          obtain ⟨fs, ws2, h2⟩ := ih _ _ _ h
          exact ⟨ev.frames ++ fs, ws ++ ws2, dispatch_append _ _ _ _ _ _ _ _ hd h2⟩
        · simp only [if_neg hsig, Option.some.injEq, Prod.mk.injEq] at h
          obtain ⟨_, rfl⟩ := h
          exact ⟨ev.frames, ws, hd⟩
    · simp only [if_neg hst, Option.some.injEq, Prod.mk.injEq] at h
      obtain ⟨_, rfl⟩ := h
      exact ⟨[], [], rfl⟩

theorem xfer_command_dispatch (blocks : Nat) (devc : dev_context) (command : List Nat)
    (in_len out_len : Nat) (env : xfer_env) (r : xfer_result)
    (h : xfer_command blocks devc command in_len out_len env = some r) :
    ∃ fs ws, dispatch blocks devc fs = some (r.devc, ws) := by
  unfold xfer_command at h
  cases hd : dispatch blocks devc env.pre_wait with
  | none => rw [hd] at h; exact absurd h (by simp)
  | some p =>
    obtain ⟨d, ws⟩ := p
    rw [hd] at h
    simp only [] at h
    by_cases c1 : env.usb_ret ≠ 0
    · rw [if_pos c1] at h
      simp only [Option.some.injEq] at h
      subst h
      exact ⟨_, _, hd⟩
    · rw [if_neg c1] at h
      by_cases c2 : env.xfer ≠ (in_len : Int)
      · rw [if_pos c2] at h
        simp only [Option.some.injEq] at h
        subst h
        exact ⟨_, _, hd⟩
      · rw [if_neg c2] at h
        cases hr : receive_message blocks d (command.getD 1 0) command out_len
            env.start_time env.waits with
        | none => rw [hr] at h; exact absurd h (by simp)
        | some r2 =>
          rw [hr] at h
          simp only [] at h
          obtain ⟨b, hw⟩ := receive_message_devc _ _ _ _ _ _ _ _ hr
          obtain ⟨fs, ws2, h2⟩ := wait_reply_dispatch _ _ _ _ _ _ _ hw
          have hres : r.devc = r2.devc := by
            split_ifs at h <;> simp only [Option.some.injEq] at h <;> subst h <;> rfl
          rw [hres]
          exact ⟨_, _, dispatch_append _ _ _ _ _ _ _ _ hd h2⟩

theorem xfer_command_ret (blocks : Nat) (devc : dev_context) (command : List Nat)
    (in_len out_len : Nat) (env : xfer_env) (r : xfer_result)
    (h : xfer_command blocks devc command in_len out_len env = some r) :
    r.ret = sr_ret.SR_OK ∨ r.ret = sr_ret.SR_ERR := by
  unfold xfer_command at h
  cases hd : dispatch blocks devc env.pre_wait with
  | none => rw [hd] at h; exact absurd h (by simp)
  | some p =>
    obtain ⟨d, ws⟩ := p
    rw [hd] at h
    simp only [] at h
    by_cases c1 : env.usb_ret ≠ 0
    · rw [if_pos c1] at h
      simp only [Option.some.injEq] at h
      subst h
      exact Or.inr rfl
    · rw [if_neg c1] at h
      by_cases c2 : env.xfer ≠ (in_len : Int)
      · rw [if_pos c2] at h
        simp only [Option.some.injEq] at h
        subst h
        exact Or.inr rfl
      · rw [if_neg c2] at h
        cases hr : receive_message blocks d (command.getD 1 0) command out_len
            env.start_time env.waits with
        | none => rw [hr] at h; exact absurd h (by simp)
        | some r2 =>
          rw [hr] at h
          simp only [] at h
          split_ifs at h <;> simp only [Option.some.injEq] at h <;> subst h
          · exact Or.inr rfl
          · exact Or.inl rfl

theorem callback_only_refl (blocks : Nat) (d : dev_context) : callback_only blocks d d :=
  ⟨rfl, rfl, rfl, ⟨[], [], rfl⟩, fun _ => ⟨rfl, rfl⟩⟩

theorem callback_only_trans (blocks : Nat) {d1 d2 d3 : dev_context}
    (h12 : callback_only blocks d1 d2) (h23 : callback_only blocks d2 d3) :
    callback_only blocks d1 d3 := by
  obtain ⟨a1, a2, a3, ⟨fs1, ws1, a4⟩, a5⟩ := h12
  obtain ⟨b1, b2, b3, ⟨fs2, ws2, b4⟩, b5⟩ := h23
  refine ⟨b1.trans a1, b2.trans a2, b3.trans a3,
    ⟨fs1 ++ fs2, ws1 ++ ws2, dispatch_append _ _ _ _ _ _ _ _ a4 b4⟩, ?_⟩
  intro hs
  have h2 := b5 (a1.trans hs)
  have h1 := a5 hs
  exact ⟨h2.1.trans h1.1, h2.2.trans h1.2⟩

theorem xfer_command_callback_only (blocks : Nat) (devc : dev_context) (command : List Nat)
    (in_len out_len : Nat) (env : xfer_env) (r : xfer_result)
    (h : xfer_command blocks devc command in_len out_len env = some r) :
    callback_only blocks devc r.devc := by
  have hc := xfer_command_consumer _ _ _ _ _ _ _ h
  exact ⟨hc.1, hc.2.1, hc.2.2.1, xfer_command_dispatch _ _ _ _ _ _ _ h,
    fun hs => xfer_command_stopped _ _ _ _ _ _ _ hs h⟩

theorem eq_some_getD {α : Type} (x : Option α) (d : α) (h : x.isSome = true) :
    x = some (x.getD d) := by
  cases x with
  | none => exact absurd h (by simp)
  | some a => rfl

/-! ## The claims -/

/-- C1 (failing input). Round trip on the ring as monodaq_u_start_acquire leaves
it (empty at index 0, slot memory zeroed, 48 samples per block): the frame with
48 payload bytes of value 7 is admitted (no warning, write index 1) and the
drain that follows sends one packet of 48 bytes, but these are the 48 zero bytes
of slot 0, not the payload; the payload lies in slot 1, behind the read index
the drain has moved to 1. -/
theorem C1_round_trip_returns_stale_block :
    (receive_transfer MONODAQ_U_DIGITAL_BLOCKS sampling_start 5 (value_frame 7)).bind
      (fun r =>
        (monodaq_u_send_data MONODAQ_U_DIGITAL_BLOCKS MONODAQ_U_DIGITAL_BLOCKS r.devc).map
          (fun x => (r.warned, r.devc.digital_bl_in_idx, x.2, x.1.digital_bl_out_idx,
            mem_read x.1.digital_blocks (block_off 1) 48)))
      = some (false, 1, [{ length := 48, unitsize := 1, data := List.replicate 48 0 }], 1,
          List.replicate 48 7) ∧
    frame_payload (value_frame 7) = List.replicate 48 7 ∧
    List.replicate 48 0 ≠ frame_payload (value_frame 7) := by
  decide!

/-- C2 (failing input). With 171 blocks of 48 bytes queued, 8208 bytes in all,
the drain sends a single packet of 8160 bytes, whose last byte is the last byte
of slot 169, and moves the read index to the write index 171: the 48 bytes of
slot 170, whose turn came when the scratch buffer had no room left, are in no
packet. The bytes sent are not the queued bytes. -/
theorem C2_block_skipped_at_flush :
    (monodaq_u_send_data MONODAQ_U_DIGITAL_BLOCKS MONODAQ_U_DIGITAL_BLOCKS overrun_queue).map
      (fun x => (x.2.map (fun p => (p.length, p.data.length, p.data.getLast?)),
        x.1.digital_bl_out_idx, x.1.digital_bl_in_idx))
      = some ([(8160, 8160, some 169)], 171, 171) ∧
    (queued_bytes MONODAQ_U_DIGITAL_BLOCKS overrun_queue).length = 8208 ∧
    (queued_bytes MONODAQ_U_DIGITAL_BLOCKS overrun_queue).getLast? = some 170 ∧
    ¬ ((monodaq_u_send_data MONODAQ_U_DIGITAL_BLOCKS MONODAQ_U_DIGITAL_BLOCKS
          overrun_queue).map (fun x => (x.2.map (fun p => p.data)).flatten)
        = some (queued_bytes MONODAQ_U_DIGITAL_BLOCKS overrun_queue)) := by
  have h1 : (monodaq_u_send_data MONODAQ_U_DIGITAL_BLOCKS MONODAQ_U_DIGITAL_BLOCKS
      overrun_queue).map
      (fun x => (x.2.map (fun p => (p.length, p.data.length, p.data.getLast?)),
        x.1.digital_bl_out_idx, x.1.digital_bl_in_idx))
      = some ([(8160, 8160, some 169)], 171, 171) := by decide!
  have h2 : (queued_bytes MONODAQ_U_DIGITAL_BLOCKS overrun_queue).length = 8208 := by decide!
  have h3 : (queued_bytes MONODAQ_U_DIGITAL_BLOCKS overrun_queue).getLast? = some 170 := by
    decide!
  refine ⟨h1, h2, h3, ?_⟩
  intro h
  cases hs : monodaq_u_send_data MONODAQ_U_DIGITAL_BLOCKS MONODAQ_U_DIGITAL_BLOCKS
      overrun_queue with
  | none => rw [hs] at h; exact absurd h (by simp)
  | some x =>
    rw [hs] at h h1
    simp only [Option.map_some', Option.some.injEq, Prod.mk.injEq] at h h1
    have hl := congrArg List.length h
    rw [h2] at hl
    obtain ⟨h1, _, _⟩ := h1
    cases hx : x.2 with
    | nil => rw [hx] at h1; exact absurd h1 (by simp)
    | cons p rest =>
      rw [hx] at h1 hl
      simp only [List.map_cons, List.cons.injEq, Prod.mk.injEq, List.map_eq_nil_iff] at h1
      obtain ⟨⟨_, hd, _⟩, hrest⟩ := h1
      rw [hrest] at hl
      simp only [List.map_cons, List.map_nil, List.flatten_cons, List.flatten_nil,
        List.append_nil] at hl
      omega

/-- C3 (as the claim states it, refuted). A ring of 3 slots, empty at index 0,
receives 4 digital data frames with no drain in between: the warnings show two
pushes dropped, not one, the write index stops at 2, and only the first two
blocks are in the ring (slots 1 and 2; slot 0 is never written), not three. -/
theorem C3_two_pushes_dropped :
    (dispatch 3 sampling_start
        [(1, value_frame 1), (2, value_frame 2), (3, value_frame 3), (4, value_frame 4)]).map
      (fun x => (x.2, x.2.count true, x.1.digital_bl_in_idx, x.1.digital_bl_out_idx,
        mem_read x.1.digital_blocks 0 144))
      = some ([false, false, true, true], 2, 2, 0,
          List.replicate 48 0 ++ List.replicate 48 1 ++ List.replicate 48 2) ∧
    ¬ ((dispatch 3 sampling_start
        [(1, value_frame 1), (2, value_frame 2), (3, value_frame 3), (4, value_frame 4)]).map
      (fun x => x.2.count true) = some 1) := by
  decide!

/-- C3 (amended). Drop-newest on overflow, with one slot always left unused: a
ring of blocks slots that is empty (read index = write index = r) receives
blocks + 1 digital data frames while sampling, with no drain in between. Then
the first blocks - 1 frames are stored and the last two are dropped with a
warning; the read index stays r, the write index ends at r + blocks - 1 modulo
blocks; frame k (k = 0 .. blocks - 2) is found, whole, in slot r + 1 + k modulo
blocks after all pushes, and no byte outside these slots has changed. -/
theorem C3_drop_newest_on_overflow (blocks : Nat) (devc : dev_context)
    (frames : List (Int × libusb_transfer))
    (hs : devc.state = dev_state_t.M_STATE_SAMPLING)
    (hempty : devc.digital_bl_in_idx = devc.digital_bl_out_idx)
    (hr : devc.digital_bl_out_idx < blocks)
    (hlen : frames.length = blocks + 1)
    (hwf : ∀ f ∈ frames, digital_frame f.2) :
    ∃ d, dispatch blocks devc frames
          = some (d, List.replicate (blocks - 1) false ++ [true, true]) ∧
      d.digital_bl_out_idx = devc.digital_bl_out_idx ∧
      d.digital_bl_in_idx = (devc.digital_bl_out_idx + (blocks - 1)) % blocks ∧
      (∀ k f, k < blocks - 1 → frames[k]? = some f →
        mem_read d.digital_blocks (block_off ((devc.digital_bl_out_idx + 1 + k) % blocks))
          (frame_payload f.2).length = frame_payload f.2) ∧
      (∀ a, (∀ k, k < blocks - 1 →
          a < block_off ((devc.digital_bl_out_idx + 1 + k) % blocks) ∨
          block_off ((devc.digital_bl_out_idx + 1 + k) % blocks)
            + MONODAQ_U_DIGITAL_PACKET_SIZE ≤ a) →
        d.digital_blocks a = devc.digital_blocks a) := by
  have hl1 : (frames.take (blocks - 1)).length = blocks - 1 := by
    rw [List.length_take, hlen]; omega
  have hl2 : (frames.drop (blocks - 1)).length = 2 := by
    rw [List.length_drop, hlen]; omega
  obtain ⟨d, g1, g2, g3, g4, g5⟩ := ring_overflow blocks devc (frames.take (blocks - 1))
    (frames.drop (blocks - 1)) hs hempty hr (by rw [hl1]; omega)
    (fun f hf => hwf f (List.mem_of_mem_take hf))
    (fun f hf => hwf f (List.mem_of_mem_drop hf))
  rw [List.take_append_drop, hl1, hl2] at g1
  rw [hl1] at g3 g4
  refine ⟨d, g1, g2, g3, ?_, g4⟩
  intro k f hk hf
  apply g5
  rw [List.getElem?_take_of_lt hk]
  exact hf

/-- C3, at a concrete input: 3 slots, empty at index 0, four frames. -/
theorem C3_drop_newest_on_overflow_witness :
    ∃ d, dispatch 3 sampling_start
            [(1, value_frame 1), (2, value_frame 2), (3, value_frame 3), (4, value_frame 4)]
          = some (d, List.replicate (3 - 1) false ++ [true, true]) ∧
      d.digital_bl_out_idx = sampling_start.digital_bl_out_idx ∧
      d.digital_bl_in_idx = (sampling_start.digital_bl_out_idx + (3 - 1)) % 3 ∧
      (∀ k f, k < 3 - 1 →
        [((1 : Int), value_frame 1), (2, value_frame 2), (3, value_frame 3),
          (4, value_frame 4)][k]? = some f →
        mem_read d.digital_blocks
          (block_off ((sampling_start.digital_bl_out_idx + 1 + k) % 3))
          (frame_payload f.2).length = frame_payload f.2) ∧
      (∀ a, (∀ k, k < 3 - 1 →
          a < block_off ((sampling_start.digital_bl_out_idx + 1 + k) % 3) ∨
          block_off ((sampling_start.digital_bl_out_idx + 1 + k) % 3)
            + MONODAQ_U_DIGITAL_PACKET_SIZE ≤ a) →
        d.digital_blocks a = sampling_start.digital_blocks a) :=
  C3_drop_newest_on_overflow 3 sampling_start
    [(1, value_frame 1), (2, value_frame 2), (3, value_frame 3), (4, value_frame 4)]
    (by decide) (by decide) (by decide) (by decide) (by decide)

/-- C4 (failing inputs). The capture state is M_STATE_STOPPED throughout.
(1) A completed 58-byte transfer with bytes 7F FF is taken for a control frame,
and its second byte, 255, indexes the mailbox table of 128 slots: the write of
time, length and data falls outside the table, so the callback has no result
here; this on an idle stopped device and on the device as the stop of the
scenario leaves it, three blocks queued. (2) Every other transfer is handled by
receive_transfer: whatever its status, bytes and length, unless it is a
completed frame of at least 2 bytes with first byte 7F whose message number is
above 127 or whose length exceeds the 64-byte buffer, the callback returns, both
ring indices and all sample blocks are as before and no queue-full warning is
logged. (3) The
scenario on the real ring of 100000 slots: the start returns SR_OK with 48
samples per block; three digital data frames with payload bytes 1, 2 and 3 are
admitted into slots 1, 2 and 3 (write index 3); the stop returns SR_OK and
leaves the state STOPPED; a fourth frame with payload bytes 4 is handled and
not admitted (write index 3, read index 0, blocks untouched, no warning); the
drain returns and sends one packet of 144 bytes, that is three blocks, which are
slots 0, 1 and 2: 48 bytes 0 that no frame carried, then the payloads 1 and 2.
The third admitted block, payload 3, is in no packet: it stays in slot 3 while
both indices are 3. -/
theorem C4_stopped_frame_outside_table :
    (stopped_idle.state = dev_state_t.M_STATE_STOPPED ∧
      (control_reply 255 58 0).status = libusb_transfer_status.LIBUSB_TRANSFER_COMPLETED ∧
      (control_reply 255 58 0).buffer.take 2 = [0x7F, 0xFF] ∧
      (receive_transfer MONODAQ_U_DIGITAL_BLOCKS stopped_idle 11
        (control_reply 255 58 0)).isNone = true ∧
      scenario_stopped.devc.state = dev_state_t.M_STATE_STOPPED ∧
      (receive_transfer MONODAQ_U_DIGITAL_BLOCKS scenario_stopped.devc 120
        (control_reply 255 58 0)).isNone = true) ∧
    (∀ (blocks : Nat) (devc : dev_context) (now : Int) (transfer : libusb_transfer),
      devc.state = dev_state_t.M_STATE_STOPPED →
      (transfer.status = libusb_transfer_status.LIBUSB_TRANSFER_COMPLETED →
        sizeof_isn_proto_t ≤ transfer.actual_length →
        transfer.buffer.getD 0 0 = 0x7F →
        transfer.buffer.getD 1 0 ≤ MONODAQU_MAX_MESSAGE_ID ∧
        transfer.actual_length ≤ MONODAQU_MAX_MESSAGE_SIZE ∧
        transfer.actual_length ≤ transfer.buffer.length) →
      ∃ r, receive_transfer blocks devc now transfer = some r ∧
        r.devc.digital_bl_in_idx = devc.digital_bl_in_idx ∧
        r.devc.digital_bl_out_idx = devc.digital_bl_out_idx ∧
        r.devc.digital_blocks = devc.digital_blocks ∧ r.warned = false) ∧
    (∃ a1 d3 a2 r4 d,
      scenario_start = some a1 ∧ a1.ret = sr_ret.SR_OK ∧
      a1.devc.digital_samples_per_block = 48 ∧
      dispatch MONODAQ_U_DIGITAL_BLOCKS a1.devc
        [(50, value_frame 1), (60, value_frame 2), (70, value_frame 3)]
        = some (d3, [false, false, false]) ∧
      d3.digital_bl_in_idx = 3 ∧ d3.digital_bl_out_idx = 0 ∧
      block_bytes d3 1 = List.replicate 48 1 ∧
      block_bytes d3 2 = List.replicate 48 2 ∧
      block_bytes d3 3 = List.replicate 48 3 ∧
      monodaq_u_stop_acquire MONODAQ_U_DIGITAL_BLOCKS d3
          (answered 10 100 (control_reply MONDAQ_U_MSG_DAQ_TRIGGER sizeof_daq_trigger_t 0))
        = some a2 ∧
      a2.ret = sr_ret.SR_OK ∧ a2.devc.state = dev_state_t.M_STATE_STOPPED ∧
      receive_transfer MONODAQ_U_DIGITAL_BLOCKS a2.devc 110 (value_frame 4) = some r4 ∧
      r4.warned = false ∧
      r4.devc.digital_bl_in_idx = 3 ∧ r4.devc.digital_bl_out_idx = 0 ∧
      r4.devc.digital_blocks = d3.digital_blocks ∧
      monodaq_u_send_data MONODAQ_U_DIGITAL_BLOCKS MONODAQ_U_DIGITAL_BLOCKS r4.devc
        = some (d, [{ length := 144
                      unitsize := 1
                      data := List.replicate 48 0 ++ List.replicate 48 1
                                ++ List.replicate 48 2 }]) ∧
      d.digital_bl_out_idx = 3 ∧ d.digital_bl_in_idx = 3 ∧
      block_bytes d 3 = List.replicate 48 3) := by
  refine ⟨⟨by decide, by decide, by decide, by decide!, by decide!, by decide!⟩, ?_, ?_⟩
  · intro blocks devc now transfer hs hin
    cases h : receive_transfer blocks devc now transfer with
    | none =>
      obtain ⟨h1, h2, h3, h4⟩ := receive_transfer_stopped_none blocks devc now transfer hs h
      exact absurd (hin h1 h2 h3) h4
    | some r =>
      have h1 := receive_transfer_stopped _ _ _ _ _ hs h
      have h2 := receive_transfer_consumer _ _ _ _ _ h
      exact ⟨r, rfl, h1.1.1, h2.2.1, h1.1.2, h1.2⟩
  · have e1 : scenario_start = some scenario_started :=
      eq_some_getD _ _ (by decide!)
    have e2 : dispatch MONODAQ_U_DIGITAL_BLOCKS scenario_started.devc
        [(50, value_frame 1), (60, value_frame 2), (70, value_frame 3)]
        = some scenario_admitted := eq_some_getD _ _ (by decide!)
    have e2b : scenario_admitted.2 = [false, false, false] := by decide!
    have e3 : monodaq_u_stop_acquire MONODAQ_U_DIGITAL_BLOCKS scenario_admitted.1
        (answered 10 100 (control_reply MONDAQ_U_MSG_DAQ_TRIGGER sizeof_daq_trigger_t 0))
        = some scenario_stopped := eq_some_getD _ _ (by decide!)
    have e4 : receive_transfer MONODAQ_U_DIGITAL_BLOCKS scenario_stopped.devc 110
        (value_frame 4) = some scenario_late := eq_some_getD _ _ (by decide!)
    have e5 : monodaq_u_send_data MONODAQ_U_DIGITAL_BLOCKS MONODAQ_U_DIGITAL_BLOCKS
        scenario_late.devc = some scenario_drained := eq_some_getD _ _ (by decide!)
    have e5b : scenario_drained.2
        = [({ length := 144
              unitsize := 1
              data := List.replicate 48 0 ++ List.replicate 48 1 ++ List.replicate 48 2 } :
            sr_datafeed_logic)] := by
      decide!
    have hst : scenario_stopped.devc.state = dev_state_t.M_STATE_STOPPED := by decide!
    have k := stop_acquire_stopped _ _ _ _ e3
    have r := receive_transfer_stopped _ _ _ _ _ hst e4
    refine ⟨scenario_started, scenario_admitted.1, scenario_stopped, scenario_late,
      scenario_drained.1, e1, by decide!, by decide!, ?_, by decide!, by decide!, by decide!,
      by decide!, by decide!, e3, by decide!, hst, e4, by decide!, by decide!, by decide!,
      ?_, ?_, by decide!, by decide!, by decide!⟩
    · rw [e2, ← e2b]
    · exact r.1.2.symm.trans k.2.2.2.1
    · rw [e5, ← e5b]

/-- C4, part (2) at concrete inputs: a digital data frame and a control frame for
message 23 arriving at a stopped idle device are handled and leave the ring as
it was. -/
theorem C4_stopped_frame_outside_table_witness :
    (∃ r, receive_transfer MONODAQ_U_DIGITAL_BLOCKS stopped_idle 7 (value_frame 9) = some r ∧
      r.devc.digital_bl_in_idx = stopped_idle.digital_bl_in_idx ∧
      r.devc.digital_bl_out_idx = stopped_idle.digital_bl_out_idx ∧
      r.devc.digital_blocks = stopped_idle.digital_blocks ∧ r.warned = false) ∧
    (∃ r, receive_transfer MONODAQ_U_DIGITAL_BLOCKS stopped_idle 7
        (control_reply MONDAQ_U_MSG_DAQ_TRIGGER sizeof_daq_trigger_t 0) = some r ∧
      r.devc.digital_bl_in_idx = stopped_idle.digital_bl_in_idx ∧
      r.devc.digital_bl_out_idx = stopped_idle.digital_bl_out_idx ∧
      r.devc.digital_blocks = stopped_idle.digital_blocks ∧ r.warned = false) :=
  ⟨C4_stopped_frame_outside_table.2.1 MONODAQ_U_DIGITAL_BLOCKS stopped_idle 7 (value_frame 9)
      (by decide) (fun _ _ h => absurd h (by decide)),
    C4_stopped_frame_outside_table.2.1 MONODAQ_U_DIGITAL_BLOCKS stopped_idle 7
      (control_reply MONDAQ_U_MSG_DAQ_TRIGGER sizeof_daq_trigger_t 0)
      (by decide) (fun _ _ _ => by decide)⟩

/-- C5. No stale match in the mailbox. For a message number m in 0..127 and the
request time t0 read by receive_message: (1) a slot whose timestamp is at least
t0 on entry satisfies the wait at once; (2) a reply for m that the callback
stores with a timestamp at least t0 during the first wait satisfies the wait,
and the exchange then goes by the length comparison; (3) whenever
receive_message ends in anything but a timeout, the slot it looked at has a
timestamp at least t0, so stale contents never satisfy a wait; (4) with a stale
slot and no frame arriving during the wait, receive_message returns
SR_ERR_TIMEOUT whatever the stale length is, with buffer and context as they
were. -/
theorem C5_no_stale_match (blocks : Nat) (devc : dev_context) (m : Nat)
    (data : List Nat) (len : Nat) (t0 : Int) (waits : List wait_event)
    (hm : m ≤ MONODAQU_MAX_MESSAGE_ID) :
    (t0 ≤ (devc.message_table m).time →
      wait_reply blocks m t0 devc waits = some (true, devc)) ∧
    (∀ (t : Int) (tr : libusb_transfer),
      (devc.message_table m).time < t0 → t0 ≤ t →
      tr.status = libusb_transfer_status.LIBUSB_TRANSFER_COMPLETED →
      2 ≤ tr.actual_length → tr.actual_length ≤ MONODAQU_MAX_MESSAGE_SIZE →
      tr.buffer.length = MONODAQU_MAX_MESSAGE_SIZE →
      tr.buffer.getD 0 0 = 0x7F → tr.buffer.getD 1 0 = m → len ≤ data.length →
      ∃ r, receive_message blocks devc m data len t0
              ({ frames := [(t, tr)], signalled := true } :: waits) = some r ∧
           r.ret = (if len = tr.actual_length then sr_ret.SR_OK else sr_ret.SR_ERR_DATA) ∧
           (r.devc.message_table m).time = t) ∧
    (∀ r, receive_message blocks devc m data len t0 waits = some r →
      r.ret ≠ sr_ret.SR_ERR_TIMEOUT → t0 ≤ (r.devc.message_table m).time) ∧
    ((devc.message_table m).time < t0 → (∀ ev ∈ waits, ev.frames = []) →
      receive_message blocks devc m data len t0 waits
        = some { ret := sr_ret.SR_ERR_TIMEOUT, command := data, devc := devc }) := by
  refine ⟨?_, ?_, ?_, ?_⟩
  · intro hf
    exact wait_reply_fresh _ _ _ _ _ (not_lt.mpr hf)
  · intro t tr hstale ht hst hlo hhi hbuf hp hmn hlen
    have hble : tr.actual_length ≤ tr.buffer.length := by rw [hbuf]; exact hhi
    have hm1 : tr.buffer.getD 1 0 ≤ MONODAQU_MAX_MESSAGE_ID := by rw [hmn]; exact hm
    have hc := receive_completed_control blocks devc t tr hlo hhi hble hp hm1
    have hr := receive_transfer_completed _ _ _ _ _ _ hst hc
    rw [hmn] at hr
    unfold receive_message
    rw [if_pos hm]
    simp only [wait_reply, if_pos hstale, dispatch, hr, if_true]
    rw [wait_reply_fresh _ _ _ _ _ (by simpa using ht)]
    simp only [if_true]
    by_cases hl : len = tr.actual_length
    · have hb : len ≤ MONODAQU_MAX_MESSAGE_SIZE ∧ len ≤ data.length := ⟨hl ▸ hhi, hlen⟩
      simp [hl, hb, hhi, hl ▸ hlen]
    · simp [hl]
  · intro r hr hne
    unfold receive_message at hr
    rw [if_pos hm] at hr
    cases hw : wait_reply blocks m t0 devc waits with
    | none => rw [hw] at hr; exact absurd hr (by simp)
    | some p =>
      obtain ⟨b, d⟩ := p
      rw [hw] at hr
      cases b with
      | false =>
        simp only [Option.some.injEq] at hr
        subst hr
        exact absurd rfl hne
      | true =>
        have hfresh := wait_reply_true_fresh _ _ _ _ _ _ hw
        simp only [] at hr
        split_ifs at hr <;> simp only [Option.some.injEq] at hr <;> subst hr <;> exact hfresh
  · intro hstale hq
    unfold receive_message
    rw [if_pos hm, wait_reply_stale_quiet _ _ _ _ _ hstale hq]

/-- C5, at a concrete input: the rate request (slot 57, 58 bytes expected) waits
from time 50 on an idle device whose slot 57 still carries timestamp 0 and no
frame arrives: timeout. -/
theorem C5_no_stale_match_witness :
    57 ≤ MONODAQU_MAX_MESSAGE_ID ∧
    (stopped_idle.message_table 57).time < 50 ∧
    receive_message MONODAQ_U_DIGITAL_BLOCKS stopped_idle 57
        (isn_struct MONDAQ_U_MSG_RATE sizeof_ins_rates_t) sizeof_ins_rates_t 50
        [{ frames := [], signalled := true }, { frames := [], signalled := false }]
      = some { ret := sr_ret.SR_ERR_TIMEOUT
               command := isn_struct MONDAQ_U_MSG_RATE sizeof_ins_rates_t
               devc := stopped_idle } :=
  ⟨by decide, by decide,
    (C5_no_stale_match MONODAQ_U_DIGITAL_BLOCKS stopped_idle 57
      (isn_struct MONDAQ_U_MSG_RATE sizeof_ins_rates_t) sizeof_ins_rates_t 50
      [{ frames := [], signalled := true }, { frames := [], signalled := false }]
      (by decide)).2.2.2 (by decide) (by decide)⟩

/-- C6 (as the claim states it, refuted). The rate request of the start sequence
finds in slot 57 a fresh reply of 10 bytes where 58 are expected: the exchange
returns SR_ERR, not SR_ERR_DATA. -/
theorem C6_wrong_length_not_data_error :
    (do_request MONODAQ_U_DIGITAL_BLOCKS
        { state := dev_state_t.M_STATE_STOPPED, sample_rate := 1000
          message_table := fun i =>
            if i = 57 then { time := 100, sz := 10, data := List.replicate 64 0 }
            else { time := 0, sz := 0, data := List.replicate 64 0 }
          digital_buffer := fun _ => 0, digital_samples_per_block := 0
          digital_blocks := fun _ => 0, digital_bl_in_idx := 0, digital_bl_out_idx := 0 }
        (isn_struct MONDAQ_U_MSG_RATE sizeof_ins_rates_t) sizeof_ins_rates_t
        { usb_ret := 0, xfer := 2, pre_wait := [], start_time := 50, waits := [] }).map
      (fun r => r.ret) = some sr_ret.SR_ERR ∧
    sr_ret.SR_ERR ≠ sr_ret.SR_ERR_DATA := by
  decide

/-- C6 (amended). Wrong-length reply. The request write succeeds (return value 0,
all in_len bytes written); d is the context as the callback has left it when
receive_message takes the mutex, and the message number is byte 1 of the
request. (1) On wake: whenever the wait loop is left with the slot fresh, the
callback having left the context d2 by then (the reply may have been in the slot
when the wait started or may have been stored during any of the waits), and the
length recorded in the slot of d2 differs from the expected reply length, then
the timestamp of the slot is at least the start time, receive_message returns
SR_ERR_DATA and xfer_command turns it into the generic SR_ERR, not success; the
caller's buffer is returned unchanged and the context returned is d2 as the
callback left it: the exchange itself writes nothing to the mailbox table or any
other part of the context, so it can be retried. do_command and do_request are
xfer_command with in_len = cmd_len and in_len = 2. (2) The slot is fresh when the
wait starts: no wait takes place and d2 is d. (3) The slot is stale when the
wait starts, whatever length it holds, and during the first wait the callback
stores a reply for this message number with a timestamp at least the start time
and a length other than the expected one, then wakes the waiter: the exchange
returns SR_ERR with the context the callback left, whose slot holds the new
timestamp and length. -/
theorem C6_wrong_length_is_error (blocks : Nat) (devc d : dev_context) (ws : List Bool)
    (command : List Nat) (in_len out_len : Nat) (env : xfer_env)
    (hret : env.usb_ret = 0) (hxfer : env.xfer = (in_len : Int))
    (hpre : dispatch blocks devc env.pre_wait = some (d, ws))
    (hm : command.getD 1 0 ≤ MONODAQU_MAX_MESSAGE_ID) :
    (∀ d2 : dev_context,
      wait_reply blocks (command.getD 1 0) env.start_time d env.waits = some (true, d2) →
      (d2.message_table (command.getD 1 0)).sz ≠ out_len →
      env.start_time ≤ (d2.message_table (command.getD 1 0)).time ∧
      receive_message blocks d (command.getD 1 0) command out_len env.start_time env.waits
        = some { ret := sr_ret.SR_ERR_DATA, command := command, devc := d2 } ∧
      xfer_command blocks devc command in_len out_len env
        = some { ret := sr_ret.SR_ERR, command := command, devc := d2 } ∧
      callback_only blocks devc d2 ∧
      (in_len = out_len →
        do_command blocks devc command out_len env
          = some { ret := sr_ret.SR_ERR, command := command, devc := d2 }) ∧
      (in_len = sizeof_isn_proto_t →
        do_request blocks devc command out_len env
          = some { ret := sr_ret.SR_ERR, command := command, devc := d2 })) ∧
    (env.start_time ≤ (d.message_table (command.getD 1 0)).time →
      (d.message_table (command.getD 1 0)).sz ≠ out_len →
      receive_message blocks d (command.getD 1 0) command out_len env.start_time env.waits
        = some { ret := sr_ret.SR_ERR_DATA, command := command, devc := d } ∧
      xfer_command blocks devc command in_len out_len env
        = some { ret := sr_ret.SR_ERR, command := command, devc := d } ∧
      (in_len = out_len →
        do_command blocks devc command out_len env
          = some { ret := sr_ret.SR_ERR, command := command, devc := d }) ∧
      (in_len = sizeof_isn_proto_t →
        do_request blocks devc command out_len env
          = some { ret := sr_ret.SR_ERR, command := command, devc := d })) ∧
    (∀ (t : Int) (tr : libusb_transfer) (rest : List wait_event),
      (d.message_table (command.getD 1 0)).time < env.start_time →
      env.waits = { frames := [(t, tr)], signalled := true } :: rest →
      tr.status = libusb_transfer_status.LIBUSB_TRANSFER_COMPLETED →
      sizeof_isn_proto_t ≤ tr.actual_length →
      tr.actual_length ≤ MONODAQU_MAX_MESSAGE_SIZE →
      tr.actual_length ≤ tr.buffer.length →
      tr.buffer.getD 0 0 = 0x7F →
      tr.buffer.getD 1 0 = command.getD 1 0 →
      env.start_time ≤ t →
      tr.actual_length ≠ out_len →
      ∃ r, receive_transfer blocks d t tr = some r ∧
        (r.devc.message_table (command.getD 1 0)).time = t ∧
        (r.devc.message_table (command.getD 1 0)).sz = tr.actual_length ∧
        receive_message blocks d (command.getD 1 0) command out_len env.start_time env.waits
          = some { ret := sr_ret.SR_ERR_DATA, command := command, devc := r.devc } ∧
        xfer_command blocks devc command in_len out_len env
          = some { ret := sr_ret.SR_ERR, command := command, devc := r.devc } ∧
        (in_len = out_len →
          do_command blocks devc command out_len env
            = some { ret := sr_ret.SR_ERR, command := command, devc := r.devc }) ∧
        (in_len = sizeof_isn_proto_t →
          do_request blocks devc command out_len env
            = some { ret := sr_ret.SR_ERR, command := command, devc := r.devc })) := by
  have H1 : ∀ d2 : dev_context,
      wait_reply blocks (command.getD 1 0) env.start_time d env.waits = some (true, d2) →
      (d2.message_table (command.getD 1 0)).sz ≠ out_len →
      receive_message blocks d (command.getD 1 0) command out_len env.start_time env.waits
        = some { ret := sr_ret.SR_ERR_DATA, command := command, devc := d2 } ∧
      xfer_command blocks devc command in_len out_len env
        = some { ret := sr_ret.SR_ERR, command := command, devc := d2 } ∧
      (in_len = out_len →
        do_command blocks devc command out_len env
          = some { ret := sr_ret.SR_ERR, command := command, devc := d2 }) ∧
      (in_len = sizeof_isn_proto_t →
        do_request blocks devc command out_len env
          = some { ret := sr_ret.SR_ERR, command := command, devc := d2 }) := by
    intro d2 hwait hsz
    have h1 : receive_message blocks d (command.getD 1 0) command out_len env.start_time
        env.waits = some { ret := sr_ret.SR_ERR_DATA, command := command, devc := d2 } := by
      unfold receive_message
      rw [if_pos hm, hwait]
      simp only []
      rw [if_pos (fun h => hsz h.symm)]
    have h2 : xfer_command blocks devc command in_len out_len env
        = some { ret := sr_ret.SR_ERR, command := command, devc := d2 } := by
      unfold xfer_command
      rw [hpre]
      simp only [hret, hxfer, h1]
      simp
    refine ⟨h1, h2, ?_, ?_⟩
    · intro he
      subst he
      exact h2
    · intro he
      subst he
      exact h2
  refine ⟨?_, ?_, ?_⟩
  · intro d2 hwait hsz
    obtain ⟨h1, h2, h3, h4⟩ := H1 d2 hwait hsz
    exact ⟨wait_reply_true_fresh _ _ _ _ _ _ hwait, h1, h2,
      xfer_command_callback_only _ _ _ _ _ _ _ h2, h3, h4⟩
  · intro hfresh hsz
    exact H1 d (wait_reply_fresh _ _ _ _ _ (not_lt.mpr hfresh)) hsz
  · intro t tr rest hstale hw hst hlo hhi hbuf hp hnum ht hlen
    have hc := receive_completed_control blocks d t tr hlo hhi hbuf hp (by rw [hnum]; exact hm)
    have hr := receive_transfer_completed blocks d t tr _ _ hst hc
    have htime : ((({ d with
        message_table := fun i =>
          if i = tr.buffer.getD 1 0 then
            { time := t
              sz := tr.actual_length
              data := list_memcpy (d.message_table (tr.buffer.getD 1 0)).data
                        tr.buffer tr.actual_length }
          else d.message_table i } : dev_context).message_table (command.getD 1 0)).time) = t := by
      simp only [hnum, if_true]
    have hsize : ((({ d with
        message_table := fun i =>
          if i = tr.buffer.getD 1 0 then
            { time := t
              sz := tr.actual_length
              data := list_memcpy (d.message_table (tr.buffer.getD 1 0)).data
                        tr.buffer tr.actual_length }
          else d.message_table i } : dev_context).message_table (command.getD 1 0)).sz)
        = tr.actual_length := by
      simp only [hnum, if_true]
    have hwait : wait_reply blocks (command.getD 1 0) env.start_time d env.waits
        = some (true, { d with
            message_table := fun i =>
              if i = tr.buffer.getD 1 0 then
                { time := t
                  sz := tr.actual_length
                  data := list_memcpy (d.message_table (tr.buffer.getD 1 0)).data
                            tr.buffer tr.actual_length }
              else d.message_table i }) := by
      rw [hw]
      simp only [wait_reply, if_pos hstale, dispatch, hr, if_true]
      exact wait_reply_fresh _ _ _ _ _ (by rw [htime]; exact not_lt.mpr ht)
    obtain ⟨h1, h2, h3, h4⟩ := H1 _ hwait (by rw [hsize]; exact hlen)
    exact ⟨_, hr, htime, hsize, h1, h2, h3, h4⟩

/-- C6, at concrete inputs. First the reply stored during the wait: slot 57 holds
a stale reply (time 40, before the start time 100) of the expected 58 bytes; the
callback stores a 10-byte reply at time 101 while the rate request waits; the
exchange returns SR_ERR and the slot holds the new reply. Then the slot that is
fresh when the wait starts: a 10-byte reply where 58 bytes are expected. -/
theorem C6_wrong_length_is_error_witness :
    ((stale_rate_reply.message_table 57).time < short_reply.start_time ∧
      (stale_rate_reply.message_table 57).sz = sizeof_ins_rates_t ∧
      ∃ r, receive_transfer MONODAQ_U_DIGITAL_BLOCKS stale_rate_reply 101
          (control_reply MONDAQ_U_MSG_RATE 10 0) = some r ∧
        (r.devc.message_table 57).time = 101 ∧
        (r.devc.message_table 57).sz = 10 ∧
        receive_message MONODAQ_U_DIGITAL_BLOCKS stale_rate_reply 57
            (isn_struct MONDAQ_U_MSG_RATE sizeof_ins_rates_t) sizeof_ins_rates_t
            short_reply.start_time short_reply.waits
          = some { ret := sr_ret.SR_ERR_DATA
                   command := isn_struct MONDAQ_U_MSG_RATE sizeof_ins_rates_t
                   devc := r.devc } ∧
        do_request MONODAQ_U_DIGITAL_BLOCKS stale_rate_reply
            (isn_struct MONDAQ_U_MSG_RATE sizeof_ins_rates_t) sizeof_ins_rates_t short_reply
          = some { ret := sr_ret.SR_ERR
                   command := isn_struct MONDAQ_U_MSG_RATE sizeof_ins_rates_t
                   devc := r.devc }) ∧
    (xfer_command MONODAQ_U_DIGITAL_BLOCKS
        { stopped_idle with
          message_table := fun i =>
            if i = 57 then { time := 100, sz := 10, data := List.replicate 64 0 }
            else { time := 0, sz := 0, data := List.replicate 64 0 } }
        (isn_struct MONDAQ_U_MSG_RATE sizeof_ins_rates_t) 2 sizeof_ins_rates_t
        { usb_ret := 0, xfer := 2, pre_wait := [], start_time := 50, waits := [] }
      = some { ret := sr_ret.SR_ERR
               command := isn_struct MONDAQ_U_MSG_RATE sizeof_ins_rates_t
               devc := { stopped_idle with
                         message_table := fun i =>
                           if i = 57 then { time := 100, sz := 10, data := List.replicate 64 0 }
                           else { time := 0, sz := 0, data := List.replicate 64 0 } } }) :=
  have h := (C6_wrong_length_is_error MONODAQ_U_DIGITAL_BLOCKS stale_rate_reply stale_rate_reply
    [] (isn_struct MONDAQ_U_MSG_RATE sizeof_ins_rates_t) 2 sizeof_ins_rates_t short_reply
    rfl rfl rfl (by decide)).2.2 101 (control_reply MONDAQ_U_MSG_RATE 10 0) []
    (by decide) rfl rfl (by decide) (by decide) (by decide) rfl rfl (by decide) (by decide)
  have g := (C6_wrong_length_is_error MONODAQ_U_DIGITAL_BLOCKS
    { stopped_idle with
      message_table := fun i =>
        if i = 57 then { time := 100, sz := 10, data := List.replicate 64 0 }
        else { time := 0, sz := 0, data := List.replicate 64 0 } }
    _ [] (isn_struct MONDAQ_U_MSG_RATE sizeof_ins_rates_t) 2 sizeof_ins_rates_t
    { usb_ret := 0, xfer := 2, pre_wait := [], start_time := 50, waits := [] }
    rfl rfl rfl (by decide)).2.1 (by decide) (by decide)
  ⟨⟨by decide, by decide,
    h.elim (fun r hr => ⟨r, hr.1, hr.2.1, hr.2.2.1, hr.2.2.2.1, hr.2.2.2.2.2.2 rfl⟩)⟩, g.2.1⟩

/-- C7. Draining an empty buffer is a no-op: when the read index equals the
write index, monodaq_u_send_data returns (with any fuel), sends no packet and
leaves the whole device context as it was; so a second drain right after the
first gives the same result as the first alone. -/
theorem C7_drain_empty_is_noop (blocks fuel : Nat) (devc : dev_context)
    (h : devc.digital_bl_out_idx = devc.digital_bl_in_idx) :
    monodaq_u_send_data blocks fuel devc = some (devc, []) ∧
    (monodaq_u_send_data blocks fuel devc).bind
        (fun x => monodaq_u_send_data blocks fuel x.1)
      = monodaq_u_send_data blocks fuel devc := by
  have h1 := send_data_empty blocks fuel devc h
  refine ⟨h1, ?_⟩
  rw [h1]
  simp [h1]

/-- C7, at a concrete input: the ring empty at index 0. -/
theorem C7_drain_empty_is_noop_witness :
    sampling_start.digital_bl_out_idx = sampling_start.digital_bl_in_idx ∧
    monodaq_u_send_data MONODAQ_U_DIGITAL_BLOCKS MONODAQ_U_DIGITAL_BLOCKS sampling_start
      = some (sampling_start, []) :=
  ⟨by decide,
    (C7_drain_empty_is_noop MONODAQ_U_DIGITAL_BLOCKS MONODAQ_U_DIGITAL_BLOCKS sampling_start
      (by decide)).1⟩

/-- C9 (as the claim states it, refuted). Four slots, empty at index 0, blocks
with values 1 to 5 pushed with no drain: the warnings are raised for the fourth
and fifth push, not the first; block 1 is in the ring (slot 1) next to blocks 2
and 3, and the ring does not hold 2, 3, 4, 5. -/
theorem C9_block_one_not_dropped :
    (dispatch 4 sampling_start
        [(1, value_frame 1), (2, value_frame 2), (3, value_frame 3), (4, value_frame 4),
         (5, value_frame 5)]).map
      (fun x => (x.2, x.1.digital_bl_in_idx, x.1.digital_bl_out_idx,
        mem_read x.1.digital_blocks 0 192))
      = some ([false, false, false, true, true], 3, 0,
          List.replicate 48 0 ++ List.replicate 48 1 ++ List.replicate 48 2
            ++ List.replicate 48 3) ∧
    ¬ ((dispatch 4 sampling_start
        [(1, value_frame 1), (2, value_frame 2), (3, value_frame 3), (4, value_frame 4),
         (5, value_frame 5)]).map
      (fun x => (x.2, mem_read x.1.digital_blocks 0 192))
      = some ([true, false, false, false, false],
          List.replicate 48 2 ++ List.replicate 48 3 ++ List.replicate 48 4
            ++ List.replicate 48 5)) := by
  decide!

/-- C9 (amended). Overflow scenario with four slots: the ring is empty at read
index r while sampling, and blocks with values 1, 2, 3, 4, 5 are pushed with no
drain in between. The ring then holds the blocks 1, 2, 3, in the slots r + 1,
r + 2, r + 3 modulo 4, and the pushes reported dropped are those of blocks 4 and
5; slot r is left as it was and the read index has not moved. -/
theorem C9_overflow_scenario (devc : dev_context) (t1 t2 t3 t4 t5 : Int)
    (hs : devc.state = dev_state_t.M_STATE_SAMPLING)
    (hempty : devc.digital_bl_in_idx = devc.digital_bl_out_idx)
    (hr : devc.digital_bl_out_idx < 4) :
    ∃ d, dispatch 4 devc
            [(t1, value_frame 1), (t2, value_frame 2), (t3, value_frame 3),
             (t4, value_frame 4), (t5, value_frame 5)]
          = some (d, [false, false, false, true, true]) ∧
      d.digital_bl_out_idx = devc.digital_bl_out_idx ∧
      d.digital_bl_in_idx = (devc.digital_bl_out_idx + 3) % 4 ∧
      mem_read d.digital_blocks (block_off ((devc.digital_bl_out_idx + 1) % 4)) 48
        = List.replicate 48 1 ∧
      mem_read d.digital_blocks (block_off ((devc.digital_bl_out_idx + 2) % 4)) 48
        = List.replicate 48 2 ∧
      mem_read d.digital_blocks (block_off ((devc.digital_bl_out_idx + 3) % 4)) 48
        = List.replicate 48 3 ∧
      mem_read d.digital_blocks (block_off devc.digital_bl_out_idx) 48
        = mem_read devc.digital_blocks (block_off devc.digital_bl_out_idx) 48 := by
  have hwf : ∀ (l : List (Int × libusb_transfer)),
      (∀ f ∈ l, ∃ v, f.2 = value_frame v) → ∀ f ∈ l, digital_frame f.2 := by
    intro l hl f hf
    obtain ⟨v, hv⟩ := hl f hf
    rw [hv]
    exact value_frame_digital v
  obtain ⟨d, g1, g2, g3, g4, g5⟩ := ring_overflow 4 devc
    [(t1, value_frame 1), (t2, value_frame 2), (t3, value_frame 3)]
    [(t4, value_frame 4), (t5, value_frame 5)] hs hempty hr rfl
    (hwf _ (by simp)) (hwf _ (by simp))
  have h1 := g5 0 (t1, value_frame 1) rfl
  have h2 := g5 1 (t2, value_frame 2) rfl
  have h3 := g5 2 (t3, value_frame 3) rfl
  simp only [value_frame_payload, List.length_replicate] at h1 h2 h3
  refine ⟨d, g1, g2, g3, h1, h2, h3, ?_⟩
  apply mem_read_congr
  intro a ha1 ha2
  apply g4
  intro k hk
  simp only [List.length_cons, List.length_nil] at hk
  have hne : (devc.digital_bl_out_idx + 0) % 4 ≠ (devc.digital_bl_out_idx + (1 + k)) % 4 :=
    slot_ne 4 _ 0 (1 + k) hr (by omega) (by omega)
  rw [Nat.add_zero, Nat.mod_eq_of_lt hr, ← Nat.add_assoc] at hne
  exact block_disjoint _ _ a 48 hne (by decide) ha1 ha2

/-- C9, at a concrete start: ring empty at index 0, frames arriving at times 1
to 5. -/
theorem C9_overflow_scenario_witness :
    ∃ d, dispatch 4 sampling_start
            [(1, value_frame 1), (2, value_frame 2), (3, value_frame 3),
             (4, value_frame 4), (5, value_frame 5)]
          = some (d, [false, false, false, true, true]) ∧
      d.digital_bl_out_idx = sampling_start.digital_bl_out_idx ∧
      d.digital_bl_in_idx = (sampling_start.digital_bl_out_idx + 3) % 4 ∧
      mem_read d.digital_blocks (block_off ((sampling_start.digital_bl_out_idx + 1) % 4)) 48
        = List.replicate 48 1 ∧
      mem_read d.digital_blocks (block_off ((sampling_start.digital_bl_out_idx + 2) % 4)) 48
        = List.replicate 48 2 ∧
      mem_read d.digital_blocks (block_off ((sampling_start.digital_bl_out_idx + 3) % 4)) 48
        = List.replicate 48 3 ∧
      mem_read d.digital_blocks (block_off sampling_start.digital_bl_out_idx) 48
        = mem_read sampling_start.digital_blocks
            (block_off sampling_start.digital_bl_out_idx) 48 :=
  C9_overflow_scenario sampling_start 1 2 3 4 5 (by decide) (by decide) (by decide)

/-- C10. Control frame routing: a completed transfer of actual length L with
2 ≤ L ≤ 64 in the 64-byte input buffer, first byte 0x7F and second byte a
message number m (0..127), arriving at time now in any capture state, is
accepted by receive_transfer and resubmitted; slot m then has timestamp now,
byte count L and the frame bytes as its first L data bytes (the rest of the slot
data is as before); every other slot, the capture state, both ring indices and
all sample blocks are unchanged, and no queue-full warning is logged. -/
theorem C10_control_frame_routing (blocks : Nat) (devc : dev_context) (now : Int)
    (transfer : libusb_transfer)
    (hst : transfer.status = libusb_transfer_status.LIBUSB_TRANSFER_COMPLETED)
    (hlo : 2 ≤ transfer.actual_length)
    (hhi : transfer.actual_length ≤ MONODAQU_MAX_MESSAGE_SIZE)
    (hbuf : transfer.buffer.length = MONODAQU_MAX_MESSAGE_SIZE)
    (hp : transfer.buffer.getD 0 0 = 0x7F)
    (hm : transfer.buffer.getD 1 0 ≤ MONODAQU_MAX_MESSAGE_ID) :
    ∃ r, receive_transfer blocks devc now transfer = some r ∧
      (r.devc.message_table (transfer.buffer.getD 1 0)).time = now ∧
      (r.devc.message_table (transfer.buffer.getD 1 0)).sz = transfer.actual_length ∧
      (r.devc.message_table (transfer.buffer.getD 1 0)).data.take transfer.actual_length
        = transfer.buffer.take transfer.actual_length ∧
      (r.devc.message_table (transfer.buffer.getD 1 0)).data.drop transfer.actual_length
        = (devc.message_table (transfer.buffer.getD 1 0)).data.drop transfer.actual_length ∧
      (∀ i, i ≠ transfer.buffer.getD 1 0 →
        r.devc.message_table i = devc.message_table i) ∧
      r.devc.state = devc.state ∧
      r.devc.digital_bl_in_idx = devc.digital_bl_in_idx ∧
      r.devc.digital_bl_out_idx = devc.digital_bl_out_idx ∧
      r.devc.digital_blocks = devc.digital_blocks ∧
      r.warned = false ∧ r.resubmitted = true := by
  have hlen : transfer.actual_length ≤ transfer.buffer.length := by rw [hbuf]; exact hhi
  have hc := receive_completed_control blocks devc now transfer hlo hhi hlen hp hm
  have htake : (transfer.buffer.take transfer.actual_length).length = transfer.actual_length := by
    rw [List.length_take]
    exact Nat.min_eq_left hlen
  refine ⟨_, receive_transfer_completed _ _ _ _ _ _ hst hc, ?_⟩
  · refine ⟨by simp, by simp, ?_, ?_, ?_, rfl, rfl, rfl, rfl, rfl, rfl⟩
    · simp only [if_pos, list_memcpy]
      rw [List.take_append_of_le_length (le_of_eq htake.symm), List.take_of_length_le (le_of_eq htake)]
    · simp only [if_pos, list_memcpy]
      rw [List.drop_append_of_le_length (le_of_eq htake.symm), List.drop_of_length_le (le_of_eq htake)]
      simp
    · intro i hi
      simp only [if_neg hi]

/-- C10, at a concrete input: the 58-byte reply to the rate request arrives at
time 11 on an idle device. -/
theorem C10_control_frame_routing_witness :
    ∃ r, receive_transfer MONODAQ_U_DIGITAL_BLOCKS stopped_idle 11
          (control_reply MONDAQ_U_MSG_RATE sizeof_ins_rates_t 0) = some r ∧
      (r.devc.message_table 57).time = 11 ∧
      (r.devc.message_table 57).sz = 58 ∧
      (∀ i, i ≠ 57 → r.devc.message_table i = stopped_idle.message_table i) ∧
      r.devc.state = stopped_idle.state ∧
      r.devc.digital_bl_in_idx = stopped_idle.digital_bl_in_idx ∧
      r.devc.digital_bl_out_idx = stopped_idle.digital_bl_out_idx ∧
      r.devc.digital_blocks = stopped_idle.digital_blocks :=
  have ⟨r, h1, h2, h3, _, _, h6, h7, h8, h9, h10, _, _⟩ :=
    C10_control_frame_routing MONODAQ_U_DIGITAL_BLOCKS stopped_idle 11
      (control_reply MONDAQ_U_MSG_RATE sizeof_ins_rates_t 0)
      (by decide) (by decide) (by decide) (by decide) (by decide) (by decide)
  ⟨r, h1, h2, h3, h6, h7, h8, h9, h10⟩

/-- C11 (as the claim states it, refuted). The ring is full (read index 0, write
index on the last slot) while sampling, and a well-formed digital data frame
arrives: it is no control frame and fails only the test for a free slot, and it
is dropped with the queue-full warning logged, not silently; indices unchanged. -/
theorem C11_full_ring_drop_is_logged :
    ¬ ((value_frame 9).buffer.getD 0 0 = 0x7F) ∧
    ¬ admission MONODAQ_U_DIGITAL_BLOCKS full_ring (value_frame 9) ∧
    ring_next MONODAQ_U_DIGITAL_BLOCKS full_ring.digital_bl_in_idx
      = full_ring.digital_bl_out_idx ∧
    (receive_transfer MONODAQ_U_DIGITAL_BLOCKS full_ring 5 (value_frame 9)).map
      (fun r => (r.warned, r.devc.digital_bl_in_idx, r.devc.digital_bl_out_idx))
      = some (true, 99999, 0) := by
  decide!

/-- C11 (amended). Data frame admission, for a completed transfer. The admission
tests are: capture state M_STATE_SAMPLING, first byte 0x7D, port byte 2, actual
length at least 8, and the slot after the write index is not the read index.
(1) If they all hold and the payload copy stays inside the slot and the input
buffer, receive_transfer stores the payload (the bytes behind the 8-byte header)
in the slot after the write index, makes that slot the write index, changes
nothing else and logs nothing. (2) Whenever receive_transfer returns with the
write index or the sample blocks changed, the admission tests held. (3) A
transfer that is no control frame and fails an admission test leaves the whole
context (mailbox table, ring, capture state) unchanged; the queue-full warning
is logged exactly when the only failing test is the one for a free slot, and
otherwise nothing is logged. -/
theorem C11_data_frame_admission (blocks : Nat) (devc : dev_context) (now : Int)
    (transfer : libusb_transfer)
    (hst : transfer.status = libusb_transfer_status.LIBUSB_TRANSFER_COMPLETED) :
    (admission blocks devc transfer →
      ring_next blocks devc.digital_bl_in_idx < blocks →
      payload_len (transfer.buffer.getD 4 0) ≤ MONODAQ_U_DIGITAL_PACKET_SIZE →
      sizeof_isn_proto_long_t + payload_len (transfer.buffer.getD 4 0)
        ≤ transfer.buffer.length →
      receive_transfer blocks devc now transfer =
        some { devc := { devc with
                         digital_blocks :=
                           mem_write devc.digital_blocks
                             (block_off (ring_next blocks devc.digital_bl_in_idx))
                             ((transfer.buffer.drop sizeof_isn_proto_long_t).take
                               (payload_len (transfer.buffer.getD 4 0)))
                         digital_bl_in_idx := ring_next blocks devc.digital_bl_in_idx }
               warned := false, resubmitted := true }) ∧
    (∀ r, receive_transfer blocks devc now transfer = some r →
      (r.devc.digital_bl_in_idx ≠ devc.digital_bl_in_idx ∨
        r.devc.digital_blocks ≠ devc.digital_blocks) →
      admission blocks devc transfer) ∧
    (¬ (sizeof_isn_proto_t ≤ transfer.actual_length ∧ transfer.buffer.getD 0 0 = 0x7F) →
      ¬ admission blocks devc transfer →
      ∃ w, receive_transfer blocks devc now transfer
            = some { devc := devc, warned := w, resubmitted := true } ∧
        (w = true ↔
          (devc.state = dev_state_t.M_STATE_SAMPLING ∧
           transfer.buffer.getD 0 0 = MONDAQ_U_ADC_PROTOCOL_ID ∧
           transfer.buffer.getD 1 0 = MONDAQ_U_DIGITAL_CHANNEL_ID ∧
           sizeof_isn_proto_long_t ≤ transfer.actual_length ∧
           ring_next blocks devc.digital_bl_in_idx = devc.digital_bl_out_idx))) := by
  refine ⟨?_, ?_, ?_⟩
  · intro ha hlt hn1 hn2
    obtain ⟨a1, a2, a3, a4, a5⟩ := ha
    exact receive_transfer_admit blocks devc now transfer a1 ⟨hst, a2, a3, a4, hn1, hn2⟩ a5 hlt
  · intro r hr hch
    unfold receive_transfer at hr
    rw [hst] at hr
    simp only [] at hr
    cases hc : receive_completed blocks devc now transfer with
    | none => rw [hc] at hr; exact absurd hr (by simp)
    | some p =>
      obtain ⟨d, w⟩ := p
      rw [hc] at hr
      simp only [Option.some.injEq] at hr
      subst hr
      exact receive_completed_changes_ring blocks devc now transfer d w hc hch
  · intro hnc hna
    obtain ⟨w, h1, h2⟩ := receive_completed_passed_over blocks devc now transfer hnc hna
    exact ⟨w, receive_transfer_completed _ _ _ _ _ _ hst h1, h2⟩

/-- C11, at a concrete input: the first frame after a start, 48 payload bytes of
value 7. -/
theorem C11_data_frame_admission_witness :
    (value_frame 7).status = libusb_transfer_status.LIBUSB_TRANSFER_COMPLETED ∧
    admission MONODAQ_U_DIGITAL_BLOCKS sampling_start (value_frame 7) ∧
    receive_transfer MONODAQ_U_DIGITAL_BLOCKS sampling_start 5 (value_frame 7) =
      some { devc := { sampling_start with
                       digital_blocks :=
                         mem_write sampling_start.digital_blocks
                           (block_off (ring_next MONODAQ_U_DIGITAL_BLOCKS
                             sampling_start.digital_bl_in_idx))
                           (((value_frame 7).buffer.drop sizeof_isn_proto_long_t).take
                             (payload_len ((value_frame 7).buffer.getD 4 0)))
                       digital_bl_in_idx :=
                         ring_next MONODAQ_U_DIGITAL_BLOCKS sampling_start.digital_bl_in_idx }
             warned := false, resubmitted := true } :=
  ⟨by decide, by decide!,
    (C11_data_frame_admission MONODAQ_U_DIGITAL_BLOCKS sampling_start 5 (value_frame 7)
      (by decide)).1 (by decide!) (by decide!) (by decide!) (by decide!)⟩

/-- C12. Start sequence, for every outcome of its exchanges (rate request, rate
command, acquisition-parameter request, trigger command). If one of the first
three is the first to fail, monodaq_u_start_acquire returns its error after
issuing no further exchange, and the context it leaves differs from the one it
was given only by what the callback did meanwhile: capture state, read index and
samples-per-block are as before, and so are write index and blocks when the
device was stopped. If the first three succeed, the context handed to the
trigger command has state M_STATE_SAMPLING, both ring indices 0 and byte 11 of
the acquisition-parameter reply (d_samples) as samples-per-block; the start then
returns whatever the trigger command returns, after four exchanges, with state
M_STATE_SAMPLING, read index 0 and that samples-per-block value, error or not.
Every error returned is SR_ERR. -/
theorem C12_start_sequence (blocks : Nat) (devc : dev_context) (e1 e2 e3 e4 : xfer_env) :
    (∀ r1,
      do_request blocks devc (isn_struct MONDAQ_U_MSG_RATE sizeof_ins_rates_t)
        sizeof_ins_rates_t e1 = some r1 →
      r1.ret ≠ sr_ret.SR_OK →
      monodaq_u_start_acquire blocks devc e1 e2 e3 e4
        = some { ret := r1.ret, devc := r1.devc, exchanges := 1 } ∧
      r1.ret = sr_ret.SR_ERR ∧ callback_only blocks devc r1.devc) ∧
    (∀ r1 r2,
      do_request blocks devc (isn_struct MONDAQ_U_MSG_RATE sizeof_ins_rates_t)
        sizeof_ins_rates_t e1 = some r1 →
      r1.ret = sr_ret.SR_OK →
      do_command blocks r1.devc
        (set_bytes r1.command 2 (le32 (r1.devc.sample_rate % 2 ^ 32)))
        sizeof_ins_rates_t e2 = some r2 →
      r2.ret ≠ sr_ret.SR_OK →
      monodaq_u_start_acquire blocks devc e1 e2 e3 e4
        = some { ret := r2.ret, devc := r2.devc, exchanges := 2 } ∧
      r2.ret = sr_ret.SR_ERR ∧ callback_only blocks devc r2.devc) ∧
    (∀ r1 r2 r3,
      do_request blocks devc (isn_struct MONDAQ_U_MSG_RATE sizeof_ins_rates_t)
        sizeof_ins_rates_t e1 = some r1 →
      r1.ret = sr_ret.SR_OK →
      do_command blocks r1.devc
        (set_bytes r1.command 2 (le32 (r1.devc.sample_rate % 2 ^ 32)))
        sizeof_ins_rates_t e2 = some r2 →
      r2.ret = sr_ret.SR_OK →
      do_request blocks r2.devc (isn_struct MONDAQ_U_MSG_DAQ_AD sizeof_daq_ad_t)
        sizeof_daq_ad_t e3 = some r3 →
      r3.ret ≠ sr_ret.SR_OK →
      monodaq_u_start_acquire blocks devc e1 e2 e3 e4
        = some { ret := r3.ret, devc := r3.devc, exchanges := 3 } ∧
      r3.ret = sr_ret.SR_ERR ∧ callback_only blocks devc r3.devc) ∧
    (∀ r1 r2 r3 r4,
      do_request blocks devc (isn_struct MONDAQ_U_MSG_RATE sizeof_ins_rates_t)
        sizeof_ins_rates_t e1 = some r1 →
      r1.ret = sr_ret.SR_OK →
      do_command blocks r1.devc
        (set_bytes r1.command 2 (le32 (r1.devc.sample_rate % 2 ^ 32)))
        sizeof_ins_rates_t e2 = some r2 →
      r2.ret = sr_ret.SR_OK →
      do_request blocks r2.devc (isn_struct MONDAQ_U_MSG_DAQ_AD sizeof_daq_ad_t)
        sizeof_daq_ad_t e3 = some r3 →
      r3.ret = sr_ret.SR_OK →
      do_command blocks
        { r3.devc with
          digital_samples_per_block := r3.command.getD 11 0
          digital_bl_in_idx := 0
          digital_bl_out_idx := 0
          state := dev_state_t.M_STATE_SAMPLING }
        (set_bytes (set_bytes (isn_struct MONDAQ_U_MSG_DAQ_TRIGGER sizeof_daq_trigger_t) 6
          (le32 0)) 2 (le32 1))
        sizeof_daq_trigger_t e4 = some r4 →
      monodaq_u_start_acquire blocks devc e1 e2 e3 e4
        = some { ret := r4.ret, devc := r4.devc, exchanges := 4 } ∧
      (r4.ret = sr_ret.SR_OK ∨ r4.ret = sr_ret.SR_ERR) ∧
      callback_only blocks devc r3.devc ∧
      r4.devc.state = dev_state_t.M_STATE_SAMPLING ∧
      r4.devc.digital_bl_out_idx = 0 ∧
      r4.devc.digital_samples_per_block = r3.command.getD 11 0 ∧
      ∃ fs ws, dispatch blocks
        { r3.devc with
          digital_samples_per_block := r3.command.getD 11 0
          digital_bl_in_idx := 0
          digital_bl_out_idx := 0
          state := dev_state_t.M_STATE_SAMPLING } fs = some (r4.devc, ws)) := by
  have herr : ∀ (d : dev_context) (c : List Nat) (i o : Nat) (e : xfer_env) (r : xfer_result),
      xfer_command blocks d c i o e = some r → r.ret ≠ sr_ret.SR_OK → r.ret = sr_ret.SR_ERR := by
    intro d c i o e r h hne
    rcases xfer_command_ret _ _ _ _ _ _ _ h with h1 | h1
    · exact absurd h1 hne
    · exact h1
  refine ⟨?_, ?_, ?_, ?_⟩
  · intro r1 h1 n1
    refine ⟨?_, herr _ _ _ _ _ _ h1 n1, xfer_command_callback_only _ _ _ _ _ _ _ h1⟩
    unfold monodaq_u_start_acquire
    simp only [h1, if_pos n1]
  · intro r1 r2 h1 o1 h2 n2
    have c1 := xfer_command_callback_only _ _ _ _ _ _ _ h1
    have c2 := xfer_command_callback_only _ _ _ _ _ _ _ h2
    refine ⟨?_, herr _ _ _ _ _ _ h2 n2, callback_only_trans blocks c1 c2⟩
    unfold monodaq_u_start_acquire
    simp only [h1, if_neg (not_not.mpr o1), h2, if_pos n2]
  · intro r1 r2 r3 h1 o1 h2 o2 h3 n3
    have c1 := xfer_command_callback_only _ _ _ _ _ _ _ h1
    have c2 := xfer_command_callback_only _ _ _ _ _ _ _ h2
    have c3 := xfer_command_callback_only _ _ _ _ _ _ _ h3
    refine ⟨?_, herr _ _ _ _ _ _ h3 n3,
      callback_only_trans blocks (callback_only_trans blocks c1 c2) c3⟩
    unfold monodaq_u_start_acquire
    simp only [h1, if_neg (not_not.mpr o1), h2, if_neg (not_not.mpr o2), h3, if_pos n3]
  · intro r1 r2 r3 r4 h1 o1 h2 o2 h3 o3 h4
    have c1 := xfer_command_callback_only _ _ _ _ _ _ _ h1
    have c2 := xfer_command_callback_only _ _ _ _ _ _ _ h2
    have c3 := xfer_command_callback_only _ _ _ _ _ _ _ h3
    have c4 := xfer_command_consumer _ _ _ _ _ _ _ h4
    refine ⟨?_, xfer_command_ret _ _ _ _ _ _ _ h4,
      callback_only_trans blocks (callback_only_trans blocks c1 c2) c3,
      c4.1, c4.2.1, c4.2.2.1, xfer_command_dispatch _ _ _ _ _ _ _ h4⟩
    unfold monodaq_u_start_acquire
    simp only [h1, if_neg (not_not.mpr o1), h2, if_neg (not_not.mpr o2), h3,
      if_neg (not_not.mpr o3), h4]
    by_cases o4 : r4.ret = sr_ret.SR_OK
    · simp [o4]
    · simp [o4]

/-- C12, at concrete inputs: a start on an idle device that answers all four
exchanges and reports 48 samples per block, and a start whose first write
fails. -/
theorem C12_start_sequence_witness :
    scenario_start.map (fun a => (a.ret, a.exchanges, a.devc.state,
        a.devc.digital_bl_out_idx, a.devc.digital_samples_per_block))
      = some (sr_ret.SR_OK, 4, dev_state_t.M_STATE_SAMPLING, 0, 48) ∧
    monodaq_u_start_acquire MONODAQ_U_DIGITAL_BLOCKS stopped_idle
        { usb_ret := -1, xfer := 0, pre_wait := [], start_time := 10, waits := [] }
        (answered 58 20 (control_reply MONDAQ_U_MSG_RATE sizeof_ins_rates_t 0))
        (answered 2 30 (control_reply MONDAQ_U_MSG_DAQ_AD sizeof_daq_ad_t 48))
        (answered 10 40 (control_reply MONDAQ_U_MSG_DAQ_TRIGGER sizeof_daq_trigger_t 0))
      = some { ret := sr_ret.SR_ERR, devc := stopped_idle, exchanges := 1 } := by
  obtain ⟨g1, _, _, g4, g5, g6, _⟩ :=
    (C12_start_sequence MONODAQ_U_DIGITAL_BLOCKS stopped_idle
      (answered 2 10 (control_reply MONDAQ_U_MSG_RATE sizeof_ins_rates_t 0))
      (answered 58 20 (control_reply MONDAQ_U_MSG_RATE sizeof_ins_rates_t 0))
      (answered 2 30 (control_reply MONDAQ_U_MSG_DAQ_AD sizeof_daq_ad_t 48))
      (answered 10 40 (control_reply MONDAQ_U_MSG_DAQ_TRIGGER sizeof_daq_trigger_t 0))).2.2.2
      scenario_rate_request scenario_rate_command scenario_daq_request scenario_trigger
      (eq_some_getD _ _ (by decide!)) (by decide!)
      (eq_some_getD _ _ (by decide!)) (by decide!)
      (eq_some_getD _ _ (by decide!)) (by decide!)
      (eq_some_getD _ _ (by decide!))
  have k1 : scenario_trigger.ret = sr_ret.SR_OK := by decide!
  have k2 : scenario_daq_request.command.getD 11 0 = 48 := by decide!
  have hf : do_request MONODAQ_U_DIGITAL_BLOCKS stopped_idle
      (isn_struct MONDAQ_U_MSG_RATE sizeof_ins_rates_t) sizeof_ins_rates_t
      { usb_ret := -1, xfer := 0, pre_wait := [], start_time := 10, waits := [] }
      = some { ret := sr_ret.SR_ERR
               command := isn_struct MONDAQ_U_MSG_RATE sizeof_ins_rates_t
               devc := stopped_idle } := by
    simp [do_request, xfer_command, dispatch]
  refine ⟨?_, ?_⟩
  · unfold scenario_start
    rw [g1]
    simp only [Option.map_some', k1, g4, g5, g6, k2]
  · exact ((C12_start_sequence MONODAQ_U_DIGITAL_BLOCKS stopped_idle _ _ _ _).1 _ hf
      (by decide)).1

/-- C13 (failing input). The rate request is written in full; the device's
58-byte reply is stored by the callback with timestamp 100, after the write began
and before receive_message reads the clock (101); no other frame arrives. The
threshold the code compares with is 101, read after the write, so the reply in
slot 57 counts as stale: receive_message ends in SR_ERR_TIMEOUT and the exchange
returns SR_ERR with the request buffer as it was. With a threshold read before the
write (99) the same slot satisfies the wait and the reply is accepted. -/
theorem C13_reply_before_clock_read_times_out :
    (do_request MONODAQ_U_DIGITAL_BLOCKS stopped_idle
        (isn_struct MONDAQ_U_MSG_RATE sizeof_ins_rates_t) sizeof_ins_rates_t early_reply).map
      (fun r => (r.ret, decide (r.command = isn_struct MONDAQ_U_MSG_RATE sizeof_ins_rates_t),
        (r.devc.message_table 57).time, (r.devc.message_table 57).sz))
      = some (sr_ret.SR_ERR, true, 100, 58) ∧
    (dispatch MONODAQ_U_DIGITAL_BLOCKS stopped_idle early_reply.pre_wait).bind
      (fun x => (receive_message MONODAQ_U_DIGITAL_BLOCKS x.1 57
        (isn_struct MONDAQ_U_MSG_RATE sizeof_ins_rates_t) sizeof_ins_rates_t
        early_reply.start_time early_reply.waits).map (fun r => r.ret))
      = some sr_ret.SR_ERR_TIMEOUT ∧
    (dispatch MONODAQ_U_DIGITAL_BLOCKS stopped_idle early_reply.pre_wait).bind
      (fun x => (receive_message MONODAQ_U_DIGITAL_BLOCKS x.1 57
        (isn_struct MONDAQ_U_MSG_RATE sizeof_ins_rates_t) sizeof_ins_rates_t
        99 early_reply.waits).map (fun r => r.ret))
      = some sr_ret.SR_OK := by
  decide!

/-- C14 (failing input). Completed 58-byte transfers whose first byte is 0x7F and
whose second byte is 128, or 255: receive_transfer takes them for control frames,
the message number it indexes the table with is the second byte as it is, 128 or
255, above MONODAQU_MAX_MESSAGE_ID, and the slot write falls outside the 128
slots of the table. -/
theorem C14_message_number_out_of_table :
    (control_reply 128 58 0).status = libusb_transfer_status.LIBUSB_TRANSFER_COMPLETED ∧
    sizeof_isn_proto_t ≤ (control_reply 128 58 0).actual_length ∧
    (control_reply 128 58 0).buffer.getD 0 0 = 0x7F ∧
    (control_reply 128 58 0).buffer.getD 1 0 = 128 ∧
    ¬ (128 ≤ MONODAQU_MAX_MESSAGE_ID) ∧
    (control_reply 128 58 0).actual_length ≤ MONODAQU_MAX_MESSAGE_SIZE ∧
    (control_reply 128 58 0).actual_length ≤ (control_reply 128 58 0).buffer.length ∧
    (receive_transfer MONODAQ_U_DIGITAL_BLOCKS stopped_idle 11 (control_reply 128 58 0)).isNone
      = true ∧
    (control_reply 255 58 0).buffer.getD 1 0 = 255 ∧
    (receive_transfer MONODAQ_U_DIGITAL_BLOCKS stopped_idle 11 (control_reply 255 58 0)).isNone
      = true ∧
    (receive_transfer MONODAQ_U_DIGITAL_BLOCKS stopped_idle 11 (control_reply 127 58 0)).isSome
      = true := by
  decide!

/-- C15 (failing inputs). Three digital data frames that pass every admission
test of receive_transfer on a freshly started ring. Short_protocol 0x80: the
length handed to memcpy is 0 - 2 in size_t arithmetic, 2^64 - 2. Short_protocol
0xBF: the length is 61, above the 48 bytes of a slot, and 8 + 61 is past the 64
bytes of the input buffer. Short_protocol 0xB2 with actual length 8: the frame
has no payload at all, yet 48 bytes (what the input buffer holds behind the
header) are copied into slot 1 and the write index advances. -/
theorem C15_copy_length_unbounded :
    sampling_start.state = dev_state_t.M_STATE_SAMPLING ∧
    ring_next MONODAQ_U_DIGITAL_BLOCKS sampling_start.digital_bl_in_idx
      ≠ sampling_start.digital_bl_out_idx ∧
    (∀ sp len, (raw_digital_frame sp len).buffer.getD 0 0 = MONDAQ_U_ADC_PROTOCOL_ID ∧
      (raw_digital_frame sp len).buffer.getD 1 0 = MONDAQ_U_DIGITAL_CHANNEL_ID ∧
      (raw_digital_frame sp len).buffer.getD 4 0 = sp ∧
      (raw_digital_frame sp len).buffer.length = MONODAQU_MAX_MESSAGE_SIZE) ∧
    payload_len 0x80 = 2 ^ 64 - 2 ∧
    (receive_transfer MONODAQ_U_DIGITAL_BLOCKS sampling_start 5
      (raw_digital_frame 0x80 64)).isNone = true ∧
    payload_len 0xBF = 61 ∧ MONODAQ_U_DIGITAL_PACKET_SIZE < 61 ∧ 64 - 8 < 61 ∧
    (receive_transfer MONODAQ_U_DIGITAL_BLOCKS sampling_start 5
      (raw_digital_frame 0xBF 64)).isNone = true ∧
    payload_len 0xB2 = 48 ∧ (raw_digital_frame 0xB2 8).actual_length - 8 < 48 ∧
    (receive_transfer MONODAQ_U_DIGITAL_BLOCKS sampling_start 5
        (raw_digital_frame 0xB2 8)).map
      (fun r => (r.warned, r.devc.digital_bl_in_idx,
        mem_read r.devc.digital_blocks (block_off 1) 48))
      = some (false, 1, List.replicate 48 9) := by
  refine ⟨by decide!, by decide!, ?_, by decide!, by decide!, by decide!, by decide!, by decide!,
    by decide!, by decide!, by decide!, by decide!⟩
  intro sp len
  exact ⟨rfl, rfl, rfl, rfl⟩

end MonodaqU
